import Mathlib

/-!
Verification of `src/create_gingerbread_house.py`.

The Python script builds seven 3-D printable solids (walls, roof panels, a
chimney) with CadQuery.  We embed the geometric pipeline shallowly:

* machine scalars are real numbers;
* a solid is a set of points of `ℝ³` (the `V3` record below); the CadQuery
  primitives `box`, `union`, `cut`, `translate` become set operations;
* a 2-D profile drawn with `polyline(...).close()` is a closed polygon given
  by its vertex list; the region it encloses is taken to be the convex hull of
  the vertices, which is exact here because every profile the script draws
  (arched opening, gable pentagon) lists its vertices in convex position;
* `Workplane("XZ")` maps a 2-D point `(x, z)` to the global point `(x, 0, z)`,
  and `extrude(depth)` sweeps the profile along the remaining axis over
  `[0, depth]` (the source's own comment "Center the extrusion in Y" documents
  that the author treats the sweep axis of an "XZ" profile as Y); similarly an
  "XY" profile maps `(x, y)` to `(x, y, 0)` and extrudes along Z.

Dimension constants keep their Python names.  Functions keep their structure:
each wall assembler is the same chain of cuts and unions as the source.
-/

namespace Gingerbread

-- ## Dimension constants (inches), source lines 31-69

def INCH_TO_MM : ℝ := 25.4

def WALL_THICKNESS : ℝ := 0.15
def HOUSE_WIDTH : ℝ := 4.0
def HOUSE_DEPTH : ℝ := 3.0
def WALL_HEIGHT : ℝ := 3.0
def PEAK_HEIGHT : ℝ := 1.5

def DOOR_WIDTH : ℝ := 0.8
def DOOR_HEIGHT : ℝ := 1.5
def DOOR_OFFSET_Y : ℝ := 0.1

def WINDOW_WIDTH : ℝ := 0.6
def WINDOW_HEIGHT : ℝ := 0.6
def WINDOW_OFFSET_Y : ℝ := 1.2

def ARCH_SEGMENTS : ℕ := 16

def ROOF_OVERHANG : ℝ := 0.3
def ROOF_THICKNESS : ℝ := 0.15

def CHIMNEY_WIDTH : ℝ := 0.6
def CHIMNEY_DEPTH : ℝ := 0.5
def CHIMNEY_HEIGHT : ℝ := 1.0

def TAB_WIDTH : ℝ := 0.3
def TAB_DEPTH : ℝ := 0.15
def TAB_HEIGHT : ℝ := 0.3
def TAB_TOLERANCE : ℝ := 0.01

-- Millimetre values.  Each assembler in the source converts the constants to
-- mm on entry (e.g. `width = HOUSE_WIDTH * INCH_TO_MM`); these shared
-- abbreviations are those conversions.

def WALL_THICKNESS_MM : ℝ := WALL_THICKNESS * INCH_TO_MM
def HOUSE_WIDTH_MM : ℝ := HOUSE_WIDTH * INCH_TO_MM
def HOUSE_DEPTH_MM : ℝ := HOUSE_DEPTH * INCH_TO_MM
def WALL_HEIGHT_MM : ℝ := WALL_HEIGHT * INCH_TO_MM
def PEAK_HEIGHT_MM : ℝ := PEAK_HEIGHT * INCH_TO_MM
def DOOR_WIDTH_MM : ℝ := DOOR_WIDTH * INCH_TO_MM
def DOOR_HEIGHT_MM : ℝ := DOOR_HEIGHT * INCH_TO_MM
def DOOR_OFFSET_MM : ℝ := DOOR_OFFSET_Y * INCH_TO_MM
def WINDOW_WIDTH_MM : ℝ := WINDOW_WIDTH * INCH_TO_MM
def WINDOW_HEIGHT_MM : ℝ := WINDOW_HEIGHT * INCH_TO_MM
def WINDOW_OFFSET_MM : ℝ := WINDOW_OFFSET_Y * INCH_TO_MM
def ROOF_OVERHANG_MM : ℝ := ROOF_OVERHANG * INCH_TO_MM
def ROOF_THICKNESS_MM : ℝ := ROOF_THICKNESS * INCH_TO_MM
def TAB_WIDTH_MM : ℝ := TAB_WIDTH * INCH_TO_MM
def TAB_DEPTH_MM : ℝ := TAB_DEPTH * INCH_TO_MM
def TAB_HEIGHT_MM : ℝ := TAB_HEIGHT * INCH_TO_MM
def TAB_TOLERANCE_MM : ℝ := TAB_TOLERANCE * INCH_TO_MM

-- ## Points and solids

/-- A point of 3-space. -/
@[ext]
structure V3 where
  x : ℝ
  y : ℝ
  z : ℝ

/-- A solid is a set of points; CadQuery booleans become set operations. -/
abbrev Solid : Type := Set V3

noncomputable section

/-- `shape.translate((vx, vy, vz))`: move a solid by the vector `v`. -/
def translate (v : V3) (s : Solid) : Solid :=
  {p | V3.mk (p.x - v.x) (p.y - v.y) (p.z - v.z) ∈ s}

/-- `cq.Workplane("XY").box(w, d, h)`: an axis-aligned box centred at the
origin with side lengths `w`, `d`, `h` along X, Y, Z. -/
def box (w d h : ℝ) : Solid :=
  {p | |p.x| ≤ w / 2 ∧ |p.y| ≤ d / 2 ∧ |p.z| ≤ h / 2}

/-- An axis-aligned box centred at `c` (what `box` becomes after `translate`). -/
def boxAt (c : V3) (w d h : ℝ) : Solid :=
  {p | |p.x - c.x| ≤ w / 2 ∧ |p.y - c.y| ≤ d / 2 ∧ |p.z - c.z| ≤ h / 2}

/-- Region of the plane enclosed by a closed polyline, as the convex hull of
its vertices.  Every polyline drawn by the script (arched opening, gable
pentagon) has its vertices in convex position, so the hull is exactly the
enclosed region. -/
def profileRegion (pts : List (ℝ × ℝ)) : Set (ℝ × ℝ) :=
  convexHull ℝ {q | q ∈ pts}

/-- Extrusion of a profile sketched on `Workplane("XZ")`: the 2-D point
`(x, z)` sits at `(x, 0, z)` and the sweep runs along Y over `[0, depth]`. -/
def extrudeXZ (profile : Set (ℝ × ℝ)) (depth : ℝ) : Solid :=
  {p | (p.x, p.z) ∈ profile ∧ 0 ≤ p.y ∧ p.y ≤ depth}

/-- Extrusion of a profile sketched on `Workplane("XY")`: the 2-D point
`(x, y)` sits at `(x, y, 0)` and the sweep runs along Z over `[0, depth]`. -/
def extrudeXY (profile : Set (ℝ × ℝ)) (depth : ℝ) : Solid :=
  {p | (p.x, p.y) ∈ profile ∧ 0 ≤ p.z ∧ p.z ≤ depth}

-- ## create_arched_opening (source lines 72-130)

/-- The arch height actually used: default `width / 2` when not supplied, then
clamped down to `height` when larger (source lines 85-90). -/
def archHeightVal (width height : ℝ) (arch_height_opt : Option ℝ) : ℝ :=
  let a := arch_height_opt.getD (width / 2)
  if a > height then height else a

/-- `rect_height = max(0, height - arch_height)` (source line 93). -/
def rectHeightVal (width height : ℝ) (arch_height_opt : Option ℝ) : ℝ :=
  max 0 (height - archHeightVal width height arch_height_opt)

/-- One sampled arch vertex (source lines 107-111):
`angle = pi - pi*i/ARCH_SEGMENTS`,
`x = (width/2)*cos(angle)`, `z = rect_height + arch_height*sin(angle)`. -/
def archSamplePoint (width rect_height arch_height : ℝ) (i : ℕ) : ℝ × ℝ :=
  ((width / 2) * Real.cos (Real.pi - Real.pi * i / ARCH_SEGMENTS),
   rect_height + arch_height * Real.sin (Real.pi - Real.pi * i / ARCH_SEGMENTS))

/-- The vertex list of the arched profile (source lines 97-117): bottom-left,
an optional left shoulder, the arch samples `i = 1, …, ARCH_SEGMENTS - 1`, an
optional right shoulder, bottom-right. -/
def archPoints (width height : ℝ) (arch_height_opt : Option ℝ) : List (ℝ × ℝ) :=
  let arch_height := archHeightVal width height arch_height_opt
  let rect_height := rectHeightVal width height arch_height_opt
  [(-width / 2, 0)]
    ++ (if rect_height > 0 then [(-width / 2, rect_height)] else [])
    ++ (List.range' 1 (ARCH_SEGMENTS - 1)).map (archSamplePoint width rect_height arch_height)
    ++ (if rect_height > 0 then [(width / 2, rect_height)] else [])
    ++ [(width / 2, 0)]

/-- `create_arched_opening(width, height, depth, arch_height)`: draw the
profile on the XZ plane, extrude by `depth`, then translate by
`(0, -depth/2, 0)` to centre the extrusion in Y (source lines 120-128). -/
def createArchedOpening (width height depth : ℝ) (arch_height_opt : Option ℝ) : Solid :=
  translate (V3.mk 0 (-depth / 2) 0)
    (extrudeXZ (profileRegion (archPoints width height arch_height_opt)) depth)

-- ## create_tab and the fastener placements (source lines 133-238)

/-- `create_tab(width, depth, height, is_slot)`: a box, grown by the converted
tab tolerance on every axis when it acts as a slot (source lines 146-152). -/
def createTab (width depth height : ℝ) (is_slot : Bool) : Solid :=
  let tolerance := if is_slot then TAB_TOLERANCE * INCH_TO_MM else 0
  box (width + tolerance * 2) (depth + tolerance * 2) (height + tolerance * 2)

/-- `tab_positions_z = [wall_height * 0.25, wall_height * 0.75]` (line 179). -/
def tab_positions_z (wall_height : ℝ) : List ℝ :=
  [wall_height * 0.25, wall_height * 0.75]

/-- Left tab of a front/back wall, translated to
`(-wall_width/2 - tab_d/2, 0, z_pos)` (source lines 185-186). -/
def left_tab_at (wall_width z_pos : ℝ) : Solid :=
  translate (V3.mk (-wall_width / 2 - TAB_DEPTH_MM / 2) 0 z_pos)
    (createTab TAB_WIDTH_MM TAB_DEPTH_MM TAB_HEIGHT_MM false)

/-- Right tab of a front/back wall, translated to
`(wall_width/2 + tab_d/2, 0, z_pos)` (source lines 190-191). -/
def right_tab_at (wall_width z_pos : ℝ) : Solid :=
  translate (V3.mk (wall_width / 2 + TAB_DEPTH_MM / 2) 0 z_pos)
    (createTab TAB_WIDTH_MM TAB_DEPTH_MM TAB_HEIGHT_MM false)

/-- Front slot of a side wall, translated to `(wall_width/2, 0, z_pos)`
(source lines 198-199). -/
def front_slot_at (wall_width z_pos : ℝ) : Solid :=
  translate (V3.mk (wall_width / 2) 0 z_pos)
    (createTab TAB_WIDTH_MM TAB_DEPTH_MM TAB_HEIGHT_MM true)

/-- Back slot of a side wall, translated to `(-wall_width/2, 0, z_pos)`
(source lines 203-204). -/
def back_slot_at (wall_width z_pos : ℝ) : Solid :=
  translate (V3.mk (-wall_width / 2) 0 z_pos)
    (createTab TAB_WIDTH_MM TAB_DEPTH_MM TAB_HEIGHT_MM true)

/-- `add_wall_tabs(wall, wall_width, wall_height, thickness, is_front_back)`
(source lines 157-207): union two tabs per z-position for front/back walls,
cut two slots per z-position for side walls. -/
def addWallTabs (wall : Solid) (wall_width wall_height thickness : ℝ)
    (is_front_back : Bool) : Solid :=
  if is_front_back then
    (tab_positions_z wall_height).foldl
      (fun w z => (w ∪ left_tab_at wall_width z) ∪ right_tab_at wall_width z) wall
  else
    (tab_positions_z wall_height).foldl
      (fun w z => (w \ front_slot_at wall_width z) \ back_slot_at wall_width z) wall

/-- Roof tab positions `[-roof_width * 0.25, roof_width * 0.25]` (line 230). -/
def roof_tab_positions_x (roof_width : ℝ) : List ℝ :=
  [-roof_width * 0.25, roof_width * 0.25]

/-- One roof tab, translated to
`(x_pos, -roof_length/2 - tab_d/2, -thickness/2 - tab_h/2)` (lines 234-235). -/
def roofTabAt (x_pos roof_length thickness : ℝ) : Solid :=
  translate (V3.mk x_pos (-roof_length / 2 - TAB_DEPTH_MM / 2)
      (-thickness / 2 - TAB_HEIGHT_MM / 2))
    (createTab TAB_WIDTH_MM TAB_DEPTH_MM TAB_HEIGHT_MM false)

/-- `add_roof_tabs(roof, roof_width, roof_length, thickness,
side_wall_thickness)` (source lines 210-238): union one tab per x-position. -/
def addRoofTabs (roof : Solid) (roof_width roof_length thickness side_wall_thickness : ℝ) :
    Solid :=
  (roof_tab_positions_x roof_width).foldl
    (fun r x => r ∪ roofTabAt x roof_length thickness) roof

-- ## create_front_wall (source lines 241-284)

/-- The front wall's base box, bottom moved to `z = 0` (lines 261-264). -/
def frontWallBase : Solid :=
  translate (V3.mk 0 0 (WALL_HEIGHT_MM / 2))
    (box HOUSE_WIDTH_MM WALL_THICKNESS_MM WALL_HEIGHT_MM)

/-- The arched door cutting tool (lines 267-268). -/
def frontDoorCut : Solid :=
  translate (V3.mk 0 0 DOOR_OFFSET_MM)
    (createArchedOpening DOOR_WIDTH_MM DOOR_HEIGHT_MM (WALL_THICKNESS_MM + 1) none)

/-- The left window cutting tool (lines 272-273). -/
def frontLeftWindowCut : Solid :=
  translate (V3.mk (-(HOUSE_WIDTH_MM / 3)) 0 WINDOW_OFFSET_MM)
    (createArchedOpening WINDOW_WIDTH_MM WINDOW_HEIGHT_MM (WALL_THICKNESS_MM + 1) none)

/-- The right window cutting tool (lines 277-278). -/
def frontRightWindowCut : Solid :=
  translate (V3.mk (HOUSE_WIDTH_MM / 3) 0 WINDOW_OFFSET_MM)
    (createArchedOpening WINDOW_WIDTH_MM WINDOW_HEIGHT_MM (WALL_THICKNESS_MM + 1) none)

/-- `create_front_wall()`: cut the door and both windows, then add tabs. -/
def createFrontWall : Solid :=
  addWallTabs (((frontWallBase \ frontDoorCut) \ frontLeftWindowCut) \ frontRightWindowCut)
    HOUSE_WIDTH_MM WALL_HEIGHT_MM WALL_THICKNESS_MM true

-- ## create_back_wall (source lines 287-317)

/-- The back wall's base box, bottom moved to `z = 0` (lines 304-307). -/
def backWallBase : Solid :=
  translate (V3.mk 0 0 (WALL_HEIGHT_MM / 2))
    (box HOUSE_WIDTH_MM WALL_THICKNESS_MM WALL_HEIGHT_MM)

/-- The centred window cutting tool of the back wall (lines 310-311). -/
def backWindowCut : Solid :=
  translate (V3.mk 0 0 WINDOW_OFFSET_MM)
    (createArchedOpening WINDOW_WIDTH_MM WINDOW_HEIGHT_MM (WALL_THICKNESS_MM + 1) none)

/-- `create_back_wall()`: cut the window, then add tabs. -/
def createBackWall : Solid :=
  addWallTabs (backWallBase \ backWindowCut)
    HOUSE_WIDTH_MM WALL_HEIGHT_MM WALL_THICKNESS_MM true

-- ## create_side_wall (source lines 320-366)

/-- Pentagon vertices of the gable profile (source lines 339-345). -/
def sideWallProfilePoints : List (ℝ × ℝ) :=
  [(-(HOUSE_DEPTH_MM / 2), 0), (HOUSE_DEPTH_MM / 2, 0),
   (HOUSE_DEPTH_MM / 2, WALL_HEIGHT_MM), (0, WALL_HEIGHT_MM + PEAK_HEIGHT_MM),
   (-(HOUSE_DEPTH_MM / 2), WALL_HEIGHT_MM)]

/-- The side wall's base: the pentagon drawn on `Workplane("XY")`, extruded by
the wall thickness and translated by `(0, -thickness/2, 0)` (lines 348-356). -/
def sideWallBase : Solid :=
  translate (V3.mk 0 (-(WALL_THICKNESS_MM / 2)) 0)
    (extrudeXY (profileRegion sideWallProfilePoints) WALL_THICKNESS_MM)

/-- The side wall's window cutting tool (lines 359-360). -/
def sideWindowCut : Solid :=
  translate (V3.mk 0 0 WINDOW_OFFSET_MM)
    (createArchedOpening WINDOW_WIDTH_MM WINDOW_HEIGHT_MM (WALL_THICKNESS_MM + 1) none)

/-- `create_side_wall()`: cut the window, then cut the slots. -/
def createSideWall : Solid :=
  addWallTabs (sideWallBase \ sideWindowCut)
    HOUSE_DEPTH_MM WALL_HEIGHT_MM WALL_THICKNESS_MM false

-- ## create_roof_panel (source lines 369-400)

/-- `depth = (HOUSE_DEPTH / 2) * INCH_TO_MM` (source line 380). -/
def ROOF_DEPTH_MM : ℝ := (HOUSE_DEPTH / 2) * INCH_TO_MM

/-- `roof_length = sqrt(depth**2 + peak**2) + overhang` (source line 386). -/
def roofLength : ℝ :=
  Real.sqrt (ROOF_DEPTH_MM ^ 2 + PEAK_HEIGHT_MM ^ 2) + ROOF_OVERHANG_MM

/-- `roof_width = width + 2 * overhang` (source line 389). -/
def roofWidth : ℝ := HOUSE_WIDTH_MM + 2 * ROOF_OVERHANG_MM

/-- The flat roof panel, bottom moved to `z = 0` (source lines 392-395). -/
def roofPanelBase : Solid :=
  translate (V3.mk 0 0 (ROOF_THICKNESS_MM / 2))
    (box roofWidth roofLength ROOF_THICKNESS_MM)

/-- `create_roof_panel()`: the flat panel plus its two tabs. -/
def createRoofPanel : Solid :=
  addRoofTabs roofPanelBase roofWidth roofLength ROOF_THICKNESS_MM WALL_THICKNESS_MM

-- ## The seven pieces produced by main() (source lines 471-481)

def mainFrontWall : Solid := createFrontWall
def mainBackWall : Solid := createBackWall
def mainLeftSide : Solid := createSideWall
def mainRightSide : Solid := createSideWall
def mainRoofLeft : Solid := createRoofPanel
def mainRoofRight : Solid := createRoofPanel

-- ## Vocabulary for the arched-profile claims

/-- The upper chain of the arched profile in uniform parametrisation: for
`i = 0, …, ARCH_SEGMENTS`, the point `(-a cos(i π/16), rh + ah sin(i π/16))`.
`archSamplePoint width rh ah i` equals `archChainPoint (width/2) ah rh i`
because `cos(π - θ) = -cos θ` and `sin(π - θ) = sin θ`; the two shoulders
(or, when `rh = 0`, the two bottom corners) are the chain's endpoints. -/
def archChainPoint (a ah rh : ℝ) (i : ℕ) : ℝ × ℝ :=
  (-a * Real.cos (Real.pi * i / 16), rh + ah * Real.sin (Real.pi * i / 16))

/-- The `i`-th edge of the closed polygon on the vertex list `pts` (the last
vertex connects back to the first, as `polyline(...).close()` does). -/
def polygonEdge (pts : List (ℝ × ℝ)) (i : ℕ) : Set (ℝ × ℝ) :=
  segment ℝ (pts.getD i (0, 0)) (pts.getD ((i + 1) % pts.length) (0, 0))

/-- Non-self-intersection of a closed polygon: two distinct edges meet at
most in their shared vertex (adjacent edges, including the closing pair),
and not at all otherwise. -/
def IsSimplePolygon (pts : List (ℝ × ℝ)) : Prop :=
  ∀ i j, i < pts.length → j < pts.length → i < j →
    polygonEdge pts i ∩ polygonEdge pts j ⊆
      (if j = i + 1 then {pts.getD j (0, 0)}
       else if i = 0 ∧ j + 1 = pts.length then {pts.getD 0 (0, 0)}
       else ∅)

end

-- ## Dimension-set validation (spec sections 3 and 7)

/-- The Dimension Set of spec section 3: one record of all linear
measurements, in inches as the source declares them.  Rationals suffice (every
constant in the source is a decimal literal) and keep validation decidable. -/
structure DimensionSet where
  wall_thickness : ℚ
  house_width : ℚ
  house_depth : ℚ
  wall_height : ℚ
  peak_height : ℚ
  door_width : ℚ
  door_height : ℚ
  door_offset_y : ℚ
  window_width : ℚ
  window_height : ℚ
  window_offset_y : ℚ
  roof_overhang : ℚ
  roof_thickness : ℚ
  chimney_width : ℚ
  chimney_depth : ℚ
  chimney_height : ℚ
  tab_width : ℚ
  tab_depth : ℚ
  tab_height : ℚ
  tab_tolerance : ℚ

/-- The invariants of spec section 3: every measurement positive, door and
window heights at most the wall height, tab height strictly below it. -/
def DimensionSet.Valid (d : DimensionSet) : Prop :=
  0 < d.wall_thickness ∧ 0 < d.house_width ∧ 0 < d.house_depth ∧
  0 < d.wall_height ∧ 0 < d.peak_height ∧ 0 < d.door_width ∧
  0 < d.door_height ∧ 0 < d.door_offset_y ∧ 0 < d.window_width ∧
  0 < d.window_height ∧ 0 < d.window_offset_y ∧ 0 < d.roof_overhang ∧
  0 < d.roof_thickness ∧ 0 < d.chimney_width ∧ 0 < d.chimney_depth ∧
  0 < d.chimney_height ∧ 0 < d.tab_width ∧ 0 < d.tab_depth ∧
  0 < d.tab_height ∧ 0 < d.tab_tolerance ∧
  d.door_height ≤ d.wall_height ∧ d.window_height ≤ d.wall_height ∧
  d.tab_height < d.wall_height

instance (d : DimensionSet) : Decidable d.Valid := by
  unfold DimensionSet.Valid; infer_instance

/-- Modelled from the spec: the repository declares its dimensions as bare
module constants (source lines 37-69) and contains no validation code; spec
sections 3 and 7 require construction of the Dimension Set to fail with
`InvalidDimension` exactly when an invariant is violated, before any geometry
work.  This function is that missing constructor. -/
def validateDimensions (d : DimensionSet) : Except String DimensionSet :=
  if d.Valid then Except.ok d else Except.error "InvalidDimension"

/-- The dimension values the repository declares (source lines 37-69). -/
def repoDimensions : DimensionSet :=
  ⟨0.15, 4.0, 3.0, 3.0, 1.5, 0.8, 1.5, 0.1, 0.6, 0.6, 1.2, 0.3, 0.15,
   0.6, 0.5, 1.0, 0.3, 0.15, 0.3, 0.01⟩

-- ## Basic lemmas about solids

theorem box_eq_boxAt (w d h : ℝ) : box w d h = boxAt (V3.mk 0 0 0) w d h := by
  unfold box boxAt
  simp

theorem translate_box (v : V3) (w d h : ℝ) :
    translate v (box w d h) = boxAt v w d h := by
  ext p
  exact Iff.rfl

theorem boxAt_subset_boxAt (c : V3) {w d h w2 d2 h2 : ℝ}
    (hw : w ≤ w2) (hd : d ≤ d2) (hh : h ≤ h2) :
    boxAt c w d h ⊆ boxAt c w2 d2 h2 := by
  intro p hp
  obtain ⟨h1, h2, h3⟩ := hp
  exact ⟨h1.trans (by linarith), h2.trans (by linarith), h3.trans (by linarith)⟩

-- ## Numeric values of the millimetre constants

theorem WALL_THICKNESS_MM_val : WALL_THICKNESS_MM = 3.81 := by
  unfold WALL_THICKNESS_MM WALL_THICKNESS INCH_TO_MM; norm_num

theorem HOUSE_WIDTH_MM_val : HOUSE_WIDTH_MM = 101.6 := by
  unfold HOUSE_WIDTH_MM HOUSE_WIDTH INCH_TO_MM; norm_num

theorem HOUSE_DEPTH_MM_val : HOUSE_DEPTH_MM = 76.2 := by
  unfold HOUSE_DEPTH_MM HOUSE_DEPTH INCH_TO_MM; norm_num

theorem WALL_HEIGHT_MM_val : WALL_HEIGHT_MM = 76.2 := by
  unfold WALL_HEIGHT_MM WALL_HEIGHT INCH_TO_MM; norm_num

theorem PEAK_HEIGHT_MM_val : PEAK_HEIGHT_MM = 38.1 := by
  unfold PEAK_HEIGHT_MM PEAK_HEIGHT INCH_TO_MM; norm_num

theorem DOOR_WIDTH_MM_val : DOOR_WIDTH_MM = 20.32 := by
  unfold DOOR_WIDTH_MM DOOR_WIDTH INCH_TO_MM; norm_num

theorem DOOR_HEIGHT_MM_val : DOOR_HEIGHT_MM = 38.1 := by
  unfold DOOR_HEIGHT_MM DOOR_HEIGHT INCH_TO_MM; norm_num

theorem DOOR_OFFSET_MM_val : DOOR_OFFSET_MM = 2.54 := by
  unfold DOOR_OFFSET_MM DOOR_OFFSET_Y INCH_TO_MM; norm_num

theorem WINDOW_WIDTH_MM_val : WINDOW_WIDTH_MM = 15.24 := by
  unfold WINDOW_WIDTH_MM WINDOW_WIDTH INCH_TO_MM; norm_num

theorem WINDOW_HEIGHT_MM_val : WINDOW_HEIGHT_MM = 15.24 := by
  unfold WINDOW_HEIGHT_MM WINDOW_HEIGHT INCH_TO_MM; norm_num

theorem WINDOW_OFFSET_MM_val : WINDOW_OFFSET_MM = 30.48 := by
  unfold WINDOW_OFFSET_MM WINDOW_OFFSET_Y INCH_TO_MM; norm_num

theorem ROOF_OVERHANG_MM_val : ROOF_OVERHANG_MM = 7.62 := by
  unfold ROOF_OVERHANG_MM ROOF_OVERHANG INCH_TO_MM; norm_num

theorem ROOF_THICKNESS_MM_val : ROOF_THICKNESS_MM = 3.81 := by
  unfold ROOF_THICKNESS_MM ROOF_THICKNESS INCH_TO_MM; norm_num

theorem TAB_WIDTH_MM_val : TAB_WIDTH_MM = 7.62 := by
  unfold TAB_WIDTH_MM TAB_WIDTH INCH_TO_MM; norm_num

theorem TAB_DEPTH_MM_val : TAB_DEPTH_MM = 3.81 := by
  unfold TAB_DEPTH_MM TAB_DEPTH INCH_TO_MM; norm_num

theorem TAB_HEIGHT_MM_val : TAB_HEIGHT_MM = 7.62 := by
  unfold TAB_HEIGHT_MM TAB_HEIGHT INCH_TO_MM; norm_num

theorem TAB_TOLERANCE_MM_val : TAB_TOLERANCE_MM = 0.254 := by
  unfold TAB_TOLERANCE_MM TAB_TOLERANCE INCH_TO_MM; norm_num

theorem ROOF_DEPTH_MM_val : ROOF_DEPTH_MM = 38.1 := by
  unfold ROOF_DEPTH_MM HOUSE_DEPTH INCH_TO_MM; norm_num

-- ## Tab and slot shapes after placement

theorem createTab_false_eq (w d h : ℝ) : createTab w d h false = box w d h := by
  unfold createTab
  norm_num

theorem createTab_true_eq (w d h : ℝ) :
    createTab w d h true = box (w + 2 * TAB_TOLERANCE_MM) (d + 2 * TAB_TOLERANCE_MM)
      (h + 2 * TAB_TOLERANCE_MM) := by
  unfold createTab TAB_TOLERANCE_MM
  norm_num
  ring_nf

theorem left_tab_at_eq (ww z : ℝ) :
    left_tab_at ww z = boxAt (V3.mk (-ww / 2 - TAB_DEPTH_MM / 2) 0 z)
      TAB_WIDTH_MM TAB_DEPTH_MM TAB_HEIGHT_MM := by
  unfold left_tab_at
  rw [createTab_false_eq, translate_box]

theorem right_tab_at_eq (ww z : ℝ) :
    right_tab_at ww z = boxAt (V3.mk (ww / 2 + TAB_DEPTH_MM / 2) 0 z)
      TAB_WIDTH_MM TAB_DEPTH_MM TAB_HEIGHT_MM := by
  unfold right_tab_at
  rw [createTab_false_eq, translate_box]

theorem front_slot_at_eq (ww z : ℝ) :
    front_slot_at ww z = boxAt (V3.mk (ww / 2) 0 z) (TAB_WIDTH_MM + 2 * TAB_TOLERANCE_MM)
      (TAB_DEPTH_MM + 2 * TAB_TOLERANCE_MM) (TAB_HEIGHT_MM + 2 * TAB_TOLERANCE_MM) := by
  unfold front_slot_at
  rw [createTab_true_eq, translate_box]

theorem back_slot_at_eq (ww z : ℝ) :
    back_slot_at ww z = boxAt (V3.mk (-ww / 2) 0 z) (TAB_WIDTH_MM + 2 * TAB_TOLERANCE_MM)
      (TAB_DEPTH_MM + 2 * TAB_TOLERANCE_MM) (TAB_HEIGHT_MM + 2 * TAB_TOLERANCE_MM) := by
  unfold back_slot_at
  rw [createTab_true_eq, translate_box]

theorem roofTabAt_eq (x_pos roof_length thickness : ℝ) :
    roofTabAt x_pos roof_length thickness =
      boxAt (V3.mk x_pos (-roof_length / 2 - TAB_DEPTH_MM / 2)
        (-thickness / 2 - TAB_HEIGHT_MM / 2)) TAB_WIDTH_MM TAB_DEPTH_MM TAB_HEIGHT_MM := by
  unfold roofTabAt
  rw [createTab_false_eq, translate_box]

-- ## Unfolding the fastener loops

theorem addWallTabs_true_eq (wall : Solid) (ww hh t : ℝ) :
    addWallTabs wall ww hh t true =
      (((wall ∪ left_tab_at ww (hh * 0.25)) ∪ right_tab_at ww (hh * 0.25))
        ∪ left_tab_at ww (hh * 0.75)) ∪ right_tab_at ww (hh * 0.75) := by
  unfold addWallTabs tab_positions_z
  simp [List.foldl]

theorem addWallTabs_false_eq (wall : Solid) (ww hh t : ℝ) :
    addWallTabs wall ww hh t false =
      (((wall \ front_slot_at ww (hh * 0.25)) \ back_slot_at ww (hh * 0.25))
        \ front_slot_at ww (hh * 0.75)) \ back_slot_at ww (hh * 0.75) := by
  unfold addWallTabs tab_positions_z
  simp [List.foldl]

theorem addRoofTabs_eq (roof : Solid) (rw rl t st : ℝ) :
    addRoofTabs roof rw rl t st =
      (roof ∪ roofTabAt (-rw * 0.25) rl t) ∪ roofTabAt (rw * 0.25) rl t := by
  unfold addRoofTabs roof_tab_positions_x
  simp [List.foldl]

-- ## Bounds on the arched profile

theorem archHeightVal_le (width height : ℝ) (arch_height_opt : Option ℝ) :
    archHeightVal width height arch_height_opt ≤ height := by
  unfold archHeightVal
  dsimp only
  split_ifs with h
  · exact le_refl height
  · exact le_of_not_gt h

theorem rectHeightVal_add (width height : ℝ) (arch_height_opt : Option ℝ) :
    rectHeightVal width height arch_height_opt
      + archHeightVal width height arch_height_opt = height := by
  unfold rectHeightVal
  have h := archHeightVal_le width height arch_height_opt
  rw [max_eq_right (by linarith)]
  ring

theorem rectHeightVal_nonneg (width height : ℝ) (arch_height_opt : Option ℝ) :
    0 ≤ rectHeightVal width height arch_height_opt :=
  le_max_left 0 _

/-- Every vertex of the arched profile lies in the slab
`|x| ≤ width/2`, `0 ≤ z ≤ height` (when the arch height is nonnegative). -/
theorem archPoints_subset_slab (width height : ℝ) (arch_height_opt : Option ℝ)
    (hw : 0 ≤ width) (hah : 0 ≤ archHeightVal width height arch_height_opt) :
    ∀ q ∈ archPoints width height arch_height_opt,
      |q.1| ≤ width / 2 ∧ 0 ≤ q.2 ∧ q.2 ≤ height := by
  have hle := archHeightVal_le width height arch_height_opt
  have hrh0 := rectHeightVal_nonneg width height arch_height_opt
  have hsum := rectHeightVal_add width height arch_height_opt
  have hh0 : 0 ≤ height := le_trans hah hle
  have hrhh : rectHeightVal width height arch_height_opt ≤ height := by linarith
  intro q hq
  unfold archPoints at hq
  simp only [List.mem_append, List.mem_singleton, List.mem_map, List.mem_ite_nil_right,
    List.mem_range'_1] at hq
  have habs : |width / 2| = width / 2 := abs_of_nonneg (by linarith)
  rcases hq with ((((h1 | h2) | h3) | h4) | h5)
  · subst h1
    constructor
    · rw [neg_div, abs_neg, habs]
    · exact ⟨le_refl 0, hh0⟩
  · obtain ⟨-, rfl⟩ := h2
    constructor
    · rw [neg_div, abs_neg, habs]
    · exact ⟨hrh0, hrhh⟩
  · obtain ⟨i, hi, rfl⟩ := h3
    unfold archSamplePoint
    have hi16 : (i : ℝ) ≤ 16 := by
      have : i < 16 := by
        have := hi.2
        unfold ARCH_SEGMENTS at this
        omega
      exact_mod_cast this.le
    have hi0 : (0 : ℝ) ≤ (i : ℝ) := Nat.cast_nonneg i
    have hseg : ((ARCH_SEGMENTS : ℕ) : ℝ) = 16 := by unfold ARCH_SEGMENTS; norm_num
    have hπ := Real.pi_pos
    have hθ0 : (0 : ℝ) ≤ Real.pi - Real.pi * i / ARCH_SEGMENTS := by
      rw [hseg]
      nlinarith
    have hθπ : Real.pi - Real.pi * i / ARCH_SEGMENTS ≤ Real.pi := by
      rw [hseg]
      nlinarith
    have hsin0 : 0 ≤ Real.sin (Real.pi - Real.pi * i / ARCH_SEGMENTS) :=
      Real.sin_nonneg_of_nonneg_of_le_pi hθ0 hθπ
    have hsin1 : Real.sin (Real.pi - Real.pi * i / ARCH_SEGMENTS) ≤ 1 := Real.sin_le_one _
    refine ⟨?_, ?_, ?_⟩
    · rw [abs_mul, habs]
      exact mul_le_of_le_one_right (by linarith) (Real.abs_cos_le_one _)
    · have := mul_nonneg hah hsin0
      simp only
      linarith
    · have : archHeightVal width height arch_height_opt *
          Real.sin (Real.pi - Real.pi * i / ARCH_SEGMENTS)
          ≤ archHeightVal width height arch_height_opt := mul_le_of_le_one_right hah hsin1
      simp only
      linarith
  · obtain ⟨-, rfl⟩ := h4
    exact ⟨by simp [habs], hrh0, hrhh⟩
  · subst h5
    exact ⟨by simp [habs], le_refl 0, hh0⟩

/-- The slab `|x| ≤ w/2`, `0 ≤ z ≤ h` is convex. -/
theorem slab_convex (w h : ℝ) :
    Convex ℝ {q : ℝ × ℝ | |q.1| ≤ w / 2 ∧ 0 ≤ q.2 ∧ q.2 ≤ h} := by
  intro q1 hq1 q2 hq2 a b ha hb hab
  obtain ⟨h1, h2, h3⟩ := hq1
  obtain ⟨h4, h5, h6⟩ := hq2
  rw [abs_le] at h1 h4
  simp only [Set.mem_setOf_eq, Prod.fst_add, Prod.snd_add, Prod.smul_fst, Prod.smul_snd,
    smul_eq_mul, abs_le]
  refine ⟨⟨?_, ?_⟩, ?_, ?_⟩ <;> nlinarith [h1.1, h1.2, h4.1, h4.2]

/-- The region enclosed by the arched profile stays inside the slab
`|x| ≤ width/2`, `0 ≤ z ≤ height`. -/
theorem profileRegion_arch_subset (width height : ℝ) (arch_height_opt : Option ℝ)
    (hw : 0 ≤ width) (hah : 0 ≤ archHeightVal width height arch_height_opt) :
    profileRegion (archPoints width height arch_height_opt) ⊆
      {q : ℝ × ℝ | |q.1| ≤ width / 2 ∧ 0 ≤ q.2 ∧ q.2 ≤ height} := by
  unfold profileRegion
  exact convexHull_min (archPoints_subset_slab width height arch_height_opt hw hah)
    (slab_convex width height)

/-- Membership in a translated solid, unfolded. -/
theorem mem_translate (v : V3) (s : Solid) (p : V3) :
    p ∈ translate v s ↔ V3.mk (p.x - v.x) (p.y - v.y) (p.z - v.z) ∈ s := Iff.rfl

/-- Every point of a translated arched cutting tool stays in the expected
bounding box: `w` wide around the tool centre, `dep` deep symmetric about the
centre plane, `h` tall above the tool's base. -/
theorem translate_arched_subset_bounds (c : V3) (w h dep : ℝ)
    (hw : 0 ≤ w) (hah : 0 ≤ archHeightVal w h none) :
    translate c (createArchedOpening w h dep none) ⊆
      {p : V3 | |p.x - c.x| ≤ w / 2 ∧ c.y - dep / 2 ≤ p.y ∧ p.y ≤ c.y + dep / 2 ∧
        c.z ≤ p.z ∧ p.z ≤ c.z + h} := by
  intro p hp
  rw [mem_translate] at hp
  unfold createArchedOpening at hp
  rw [mem_translate] at hp
  obtain ⟨hprof, hy0, hy1⟩ := hp
  dsimp only at hprof hy0 hy1
  have hb := profileRegion_arch_subset w h none hw hah hprof
  obtain ⟨hx, hz0, hz1⟩ := hb
  dsimp only at hx hz0 hz1
  rw [sub_zero] at hx hz0 hz1
  rw [abs_le] at hx
  simp only [Set.mem_setOf_eq, abs_le]
  refine ⟨⟨?_, ?_⟩, ?_, ?_, ?_, ?_⟩ <;> linarith [hx.1, hx.2]

/-- Constructor for membership in a translated arched cutting tool. -/
theorem translate_arched_mem_of (c : V3) (w h dep : ℝ) (q : ℝ × ℝ) (y : ℝ)
    (hq : q ∈ profileRegion (archPoints w h none))
    (hy0 : 0 ≤ y + dep / 2) (hy1 : y + dep / 2 ≤ dep) :
    V3.mk (c.x + q.1) (c.y + y) (c.z + q.2) ∈
      translate c (createArchedOpening w h dep none) := by
  rw [mem_translate]
  unfold createArchedOpening
  rw [mem_translate]
  refine ⟨?_, ?_, ?_⟩
  · dsimp only
    have he : (c.x + q.1 - c.x - 0, c.z + q.2 - c.z - 0) = q := by
      rw [Prod.mk.injEq]
      constructor <;> ring_nf
    rw [he]
    exact hq
  · dsimp only
    linarith
  · dsimp only
    linarith

/-- The bottom-left corner `(-w/2, 0)` is always a vertex of the arched
profile, hence in its region. -/
theorem bottom_left_mem_profileRegion (w h : ℝ) (arch_height_opt : Option ℝ) :
    ((-w / 2, 0) : ℝ × ℝ) ∈ profileRegion (archPoints w h arch_height_opt) := by
  apply subset_convexHull ℝ
  simp [archPoints]

/-- When the rectangular sub-height is positive, the midpoint of the two
shoulder vertices, `(0, rect_height)`, lies in the profile region. -/
theorem shoulder_mid_mem_profileRegion (w h : ℝ) (arch_height_opt : Option ℝ)
    (hrh : 0 < rectHeightVal w h arch_height_opt) :
    ((0, rectHeightVal w h arch_height_opt) : ℝ × ℝ)
      ∈ profileRegion (archPoints w h arch_height_opt) := by
  have hl : ((-w / 2, rectHeightVal w h arch_height_opt) : ℝ × ℝ)
      ∈ {q : ℝ × ℝ | q ∈ archPoints w h arch_height_opt} := by
    simp [archPoints, hrh]
  have hr : ((w / 2, rectHeightVal w h arch_height_opt) : ℝ × ℝ)
      ∈ {q : ℝ × ℝ | q ∈ archPoints w h arch_height_opt} := by
    simp [archPoints, hrh]
  have hcvx := convex_convexHull ℝ {q : ℝ × ℝ | q ∈ archPoints w h arch_height_opt}
  have hm := hcvx (subset_convexHull ℝ _ hl) (subset_convexHull ℝ _ hr)
    (by norm_num : (0:ℝ) ≤ 1/2) (by norm_num : (0:ℝ) ≤ 1/2) (by norm_num)
  have he : ((1:ℝ)/2) • ((-w / 2, rectHeightVal w h arch_height_opt) : ℝ × ℝ)
      + ((1:ℝ)/2) • ((w / 2, rectHeightVal w h arch_height_opt) : ℝ × ℝ)
      = ((0, rectHeightVal w h arch_height_opt) : ℝ × ℝ) := by
    rw [Prod.smul_mk, Prod.smul_mk, Prod.mk_add_mk, Prod.mk.injEq]
    constructor
    · simp only [smul_eq_mul]
      ring
    · simp only [smul_eq_mul]
      ring
  rw [he] at hm
  exact hm

-- ## Claim C1

/-- Claim C1: for every positive wall span the placement rule puts fasteners
at exactly `0.25 * span` and `0.75 * span`, front/back-wall tabs and side-wall
slots alike (each placed box is centred at its position), and for one nominal
`(width, depth, height)` the slot box is the tab box grown by the tolerance:
both are axis-aligned boxes centred at the same point, the slot contains the
tab, and each slot dimension exceeds the tab's by twice the tab tolerance. -/
theorem tab_slot_placement_and_tolerance (span w d h : ℝ) (hspan : 0 < span) :
    tab_positions_z span = [0.25 * span, 0.75 * span] ∧
    (∀ ww z, left_tab_at ww z =
      boxAt (V3.mk (-ww / 2 - TAB_DEPTH_MM / 2) 0 z)
        TAB_WIDTH_MM TAB_DEPTH_MM TAB_HEIGHT_MM) ∧
    (∀ ww z, right_tab_at ww z =
      boxAt (V3.mk (ww / 2 + TAB_DEPTH_MM / 2) 0 z)
        TAB_WIDTH_MM TAB_DEPTH_MM TAB_HEIGHT_MM) ∧
    (∀ ww z, front_slot_at ww z =
      boxAt (V3.mk (ww / 2) 0 z) (TAB_WIDTH_MM + 2 * TAB_TOLERANCE_MM)
        (TAB_DEPTH_MM + 2 * TAB_TOLERANCE_MM) (TAB_HEIGHT_MM + 2 * TAB_TOLERANCE_MM)) ∧
    (∀ ww z, back_slot_at ww z =
      boxAt (V3.mk (-ww / 2) 0 z) (TAB_WIDTH_MM + 2 * TAB_TOLERANCE_MM)
        (TAB_DEPTH_MM + 2 * TAB_TOLERANCE_MM) (TAB_HEIGHT_MM + 2 * TAB_TOLERANCE_MM)) ∧
    createTab w d h false = boxAt (V3.mk 0 0 0) w d h ∧
    createTab w d h true = boxAt (V3.mk 0 0 0) (w + 2 * TAB_TOLERANCE_MM)
      (d + 2 * TAB_TOLERANCE_MM) (h + 2 * TAB_TOLERANCE_MM) ∧
    createTab w d h false ⊆ createTab w d h true := by
  have htab : ∀ w1 d1 h1 : ℝ, createTab w1 d1 h1 false = box w1 d1 h1 := by
    intro w1 d1 h1
    unfold createTab
    norm_num
  have hslot : ∀ w1 d1 h1 : ℝ, createTab w1 d1 h1 true =
      box (w1 + 2 * TAB_TOLERANCE_MM) (d1 + 2 * TAB_TOLERANCE_MM)
        (h1 + 2 * TAB_TOLERANCE_MM) := by
    intro w1 d1 h1
    unfold createTab TAB_TOLERANCE_MM
    norm_num
    ring_nf
  refine ⟨by unfold tab_positions_z; norm_num [mul_comm], ?_, ?_, ?_, ?_, ?_, ?_, ?_⟩
  · intro ww z
    unfold left_tab_at
    rw [htab, translate_box]
  · intro ww z
    unfold right_tab_at
    rw [htab, translate_box]
  · intro ww z
    unfold front_slot_at
    rw [hslot, translate_box]
  · intro ww z
    unfold back_slot_at
    rw [hslot, translate_box]
  · rw [htab, box_eq_boxAt]
  · rw [hslot, box_eq_boxAt]
  · rw [htab, hslot, box_eq_boxAt, box_eq_boxAt]
    have htol : (0 : ℝ) ≤ TAB_TOLERANCE_MM := by
      unfold TAB_TOLERANCE_MM TAB_TOLERANCE INCH_TO_MM; norm_num
    exact boxAt_subset_boxAt _ (by linarith) (by linarith) (by linarith)

/-- Witness for C1 at the span of the repository's walls (76.2 mm). -/
theorem tab_slot_placement_and_tolerance_witness :
    (0 : ℝ) < 76.2 ∧ tab_positions_z 76.2 = [0.25 * 76.2, 0.75 * 76.2] :=
  ⟨by norm_num, (tab_slot_placement_and_tolerance 76.2 1 1 1 (by norm_num)).1⟩

-- ## Claim C3

/-- Claim C3, what the code actually does at the repository's dimensions: the
roof panel is the flat panel unioned (never cut) with exactly two tabs at
x-positions -25% and +25% of the panel width, but each tab's centre lies
`(roof_thickness + tab_height)/2 = 5.715` mm below the panel's bottom face
(z = 0) — not `tab_height/2 = 3.81` mm as claimed — because `add_roof_tabs`
places tabs as if the panel were still centred at the origin although
`create_roof_panel` has already lifted it by half its thickness.  The tab
tops end at z = -1.905 mm while the panel starts at z = 0, so every tab is
disjoint from the panel (it floats instead of engaging it). -/
theorem roof_tabs_detached :
    createRoofPanel =
      (roofPanelBase ∪ roofTabAt (-roofWidth * 0.25) roofLength ROOF_THICKNESS_MM)
        ∪ roofTabAt (roofWidth * 0.25) roofLength ROOF_THICKNESS_MM ∧
    (∀ x_pos, roofTabAt x_pos roofLength ROOF_THICKNESS_MM =
      boxAt (V3.mk x_pos (-roofLength / 2 - TAB_DEPTH_MM / 2)
        (-ROOF_THICKNESS_MM / 2 - TAB_HEIGHT_MM / 2))
        TAB_WIDTH_MM TAB_DEPTH_MM TAB_HEIGHT_MM) ∧
    -ROOF_THICKNESS_MM / 2 - TAB_HEIGHT_MM / 2 = -5.715 ∧
    -ROOF_THICKNESS_MM / 2 - TAB_HEIGHT_MM / 2 ≠ -(TAB_HEIGHT_MM / 2) ∧
    V3.mk (roofWidth * 0.25) (-roofLength / 2 - TAB_DEPTH_MM / 2) (-5.715)
      ∈ roofTabAt (roofWidth * 0.25) roofLength ROOF_THICKNESS_MM ∧
    (∀ x_pos, roofTabAt x_pos roofLength ROOF_THICKNESS_MM ⊆ {p : V3 | p.z ≤ -1.905}) ∧
    roofPanelBase ⊆ {p : V3 | 0 ≤ p.z} ∧
    (∀ x_pos, roofTabAt x_pos roofLength ROOF_THICKNESS_MM ∩ roofPanelBase = ∅) := by
  have htv := TAB_HEIGHT_MM_val
  have hdv := TAB_DEPTH_MM_val
  have hwv := TAB_WIDTH_MM_val
  have hrt := ROOF_THICKNESS_MM_val
  refine ⟨?_, ?_, ?_, ?_, ?_, ?_, ?_, ?_⟩
  · unfold createRoofPanel
    exact addRoofTabs_eq roofPanelBase roofWidth roofLength ROOF_THICKNESS_MM WALL_THICKNESS_MM
  · intro x_pos
    exact roofTabAt_eq x_pos roofLength ROOF_THICKNESS_MM
  · rw [htv, hrt]; norm_num
  · rw [htv, hrt]; norm_num
  · rw [roofTabAt_eq]
    refine ⟨?_, ?_, ?_⟩
    · simp
      rw [hwv]; norm_num
    · simp
      rw [hdv]; norm_num
    · simp only
      rw [htv, hrt]
      norm_num
  · intro x_pos p hp
    rw [roofTabAt_eq] at hp
    obtain ⟨-, -, hz⟩ := hp
    simp only at hz
    rw [htv, hrt] at hz
    rw [abs_le] at hz
    simp only [Set.mem_setOf_eq]
    linarith [hz.2]
  · intro p hp
    unfold roofPanelBase at hp
    rw [translate_box] at hp
    obtain ⟨-, -, hz⟩ := hp
    simp only at hz
    rw [hrt] at hz
    rw [abs_le] at hz
    simp only [Set.mem_setOf_eq]
    linarith [hz.1]
  · intro x_pos
    ext p
    simp only [Set.mem_inter_iff, Set.mem_empty_iff_false, iff_false, not_and]
    intro hp hq
    rw [roofTabAt_eq] at hp
    obtain ⟨-, -, hz1⟩ := hp
    unfold roofPanelBase at hq
    rw [translate_box] at hq
    obtain ⟨-, -, hz2⟩ := hq
    simp only at hz1 hz2
    rw [htv, hrt] at hz1
    rw [hrt] at hz2
    rw [abs_le] at hz1 hz2
    linarith [hz1.2, hz2.1]

-- ## Claim C8

/-- Claim C8: the roof panel length is the hypotenuse of (half the house
depth, the peak height) plus the overhang, computed from the very same
mm-converted house depth and peak height that the side-wall gable uses. -/
theorem roof_length_is_hypotenuse :
    roofLength = Real.sqrt ((HOUSE_DEPTH_MM / 2) ^ 2 + PEAK_HEIGHT_MM ^ 2)
      + ROOF_OVERHANG_MM := by
  unfold roofLength
  have h : ROOF_DEPTH_MM = HOUSE_DEPTH_MM / 2 := by
    unfold ROOF_DEPTH_MM HOUSE_DEPTH_MM
    ring
  rw [h]

-- ## Claim C9

/-- Claim C9 (validation modelled from the spec; the repository itself has no
constructor): constructing the Dimension Set fails with `InvalidDimension`
exactly when a section-3 invariant is violated, succeeds otherwise, and the
repository's own constants pass validation. -/
theorem dimension_validation_iff (d : DimensionSet) :
    (validateDimensions d = Except.error "InvalidDimension" ↔ ¬d.Valid) ∧
    (validateDimensions d = Except.ok d ↔ d.Valid) ∧
    validateDimensions repoDimensions = Except.ok repoDimensions := by
  have hv : repoDimensions.Valid := by
    unfold repoDimensions DimensionSet.Valid
    norm_num
  refine ⟨?_, ?_, ?_⟩
  · unfold validateDimensions
    split_ifs with h
    · simp [h]
    · simp [h]
  · unfold validateDimensions
    split_ifs with h
    · simp [h]
    · simp [h]
  · unfold validateDimensions
    rw [if_pos hv]

-- ## Claim C10

/-- Claim C10: the two side walls exposed by a generation run are the same
solid, and so are the two roof panels: `create_side_wall` and
`create_roof_panel` take no arguments and `main` calls each twice with no
transform applied to the second instance. -/
theorem side_walls_and_roof_panels_identical :
    mainLeftSide = mainRightSide ∧ mainRoofLeft = mainRoofRight :=
  ⟨rfl, rfl⟩

-- ## Concrete arch values for the door and window openings

theorem door_archHeightVal : archHeightVal DOOR_WIDTH_MM DOOR_HEIGHT_MM none = 10.16 := by
  unfold archHeightVal
  simp only [Option.getD]
  rw [if_neg]
  · rw [DOOR_WIDTH_MM_val]; norm_num
  · rw [DOOR_WIDTH_MM_val, DOOR_HEIGHT_MM_val]; norm_num

theorem door_rectHeightVal : rectHeightVal DOOR_WIDTH_MM DOOR_HEIGHT_MM none = 27.94 := by
  unfold rectHeightVal
  rw [door_archHeightVal, DOOR_HEIGHT_MM_val, max_eq_right (by norm_num : (0:ℝ) ≤ 38.1 - 10.16)]
  norm_num

theorem window_archHeightVal : archHeightVal WINDOW_WIDTH_MM WINDOW_HEIGHT_MM none = 7.62 := by
  unfold archHeightVal
  simp only [Option.getD]
  rw [if_neg]
  · rw [WINDOW_WIDTH_MM_val]; norm_num
  · rw [WINDOW_WIDTH_MM_val, WINDOW_HEIGHT_MM_val]; norm_num

theorem window_rectHeightVal : rectHeightVal WINDOW_WIDTH_MM WINDOW_HEIGHT_MM none = 7.62 := by
  unfold rectHeightVal
  rw [window_archHeightVal, WINDOW_HEIGHT_MM_val,
    max_eq_right (by norm_num : (0:ℝ) ≤ 15.24 - 7.62)]
  norm_num

-- ## Bounding boxes of the four cutting tools of the front wall

theorem frontDoorCut_subset :
    frontDoorCut ⊆ {p : V3 | |p.x| ≤ 10.16 ∧ -2.405 ≤ p.y ∧ p.y ≤ 2.405 ∧
      2.54 ≤ p.z ∧ p.z ≤ 40.64} := by
  intro p hp
  unfold frontDoorCut at hp
  have hb := translate_arched_subset_bounds (V3.mk 0 0 DOOR_OFFSET_MM) DOOR_WIDTH_MM
    DOOR_HEIGHT_MM (WALL_THICKNESS_MM + 1)
    (by rw [DOOR_WIDTH_MM_val]; norm_num)
    (by rw [door_archHeightVal]; norm_num) hp
  obtain ⟨h1, h2, h3, h4, h5⟩ := hb
  dsimp only at h1 h2 h3 h4 h5
  rw [sub_zero] at h1
  simp only [DOOR_WIDTH_MM_val, WALL_THICKNESS_MM_val, DOOR_OFFSET_MM_val,
    DOOR_HEIGHT_MM_val] at h1 h2 h3 h4 h5
  exact ⟨by linarith, by linarith, by linarith, by linarith, by linarith⟩

theorem frontLeftWindowCut_subset :
    frontLeftWindowCut ⊆ {p : V3 | |p.x + HOUSE_WIDTH_MM / 3| ≤ 7.62 ∧
      -2.405 ≤ p.y ∧ p.y ≤ 2.405 ∧ 30.48 ≤ p.z ∧ p.z ≤ 45.72} := by
  intro p hp
  unfold frontLeftWindowCut at hp
  have hb := translate_arched_subset_bounds (V3.mk (-(HOUSE_WIDTH_MM / 3)) 0 WINDOW_OFFSET_MM)
    WINDOW_WIDTH_MM WINDOW_HEIGHT_MM (WALL_THICKNESS_MM + 1)
    (by rw [WINDOW_WIDTH_MM_val]; norm_num)
    (by rw [window_archHeightVal]; norm_num) hp
  obtain ⟨h1, h2, h3, h4, h5⟩ := hb
  dsimp only at h1 h2 h3 h4 h5
  rw [sub_neg_eq_add] at h1
  simp only [WINDOW_WIDTH_MM_val, WALL_THICKNESS_MM_val, WINDOW_OFFSET_MM_val,
    WINDOW_HEIGHT_MM_val] at h1 h2 h3 h4 h5
  exact ⟨by linarith, by linarith, by linarith, by linarith, by linarith⟩

theorem frontRightWindowCut_subset :
    frontRightWindowCut ⊆ {p : V3 | |p.x - HOUSE_WIDTH_MM / 3| ≤ 7.62 ∧
      -2.405 ≤ p.y ∧ p.y ≤ 2.405 ∧ 30.48 ≤ p.z ∧ p.z ≤ 45.72} := by
  intro p hp
  unfold frontRightWindowCut at hp
  have hb := translate_arched_subset_bounds (V3.mk (HOUSE_WIDTH_MM / 3) 0 WINDOW_OFFSET_MM)
    WINDOW_WIDTH_MM WINDOW_HEIGHT_MM (WALL_THICKNESS_MM + 1)
    (by rw [WINDOW_WIDTH_MM_val]; norm_num)
    (by rw [window_archHeightVal]; norm_num) hp
  obtain ⟨h1, h2, h3, h4, h5⟩ := hb
  dsimp only at h1 h2 h3 h4 h5
  simp only [WINDOW_WIDTH_MM_val, WALL_THICKNESS_MM_val, WINDOW_OFFSET_MM_val,
    WINDOW_HEIGHT_MM_val] at h1 h2 h3 h4 h5
  exact ⟨by linarith, by linarith, by linarith, by linarith, by linarith⟩

-- x-intervals of the cutting tools, in a handy destructed form

theorem frontDoorCut_x (p : V3) (hp : p ∈ frontDoorCut) :
    -10.16 ≤ p.x ∧ p.x ≤ 10.16 := by
  have h := (frontDoorCut_subset hp).1
  rw [abs_le] at h
  exact h

theorem frontLeftWindowCut_x (p : V3) (hp : p ∈ frontLeftWindowCut) :
    -(HOUSE_WIDTH_MM / 3) - 7.62 ≤ p.x ∧ p.x ≤ -(HOUSE_WIDTH_MM / 3) + 7.62 := by
  have h := (frontLeftWindowCut_subset hp).1
  rw [abs_le] at h
  constructor <;> linarith [h.1, h.2]

theorem frontRightWindowCut_x (p : V3) (hp : p ∈ frontRightWindowCut) :
    HOUSE_WIDTH_MM / 3 - 7.62 ≤ p.x ∧ p.x ≤ HOUSE_WIDTH_MM / 3 + 7.62 := by
  have h := (frontRightWindowCut_subset hp).1
  rw [abs_le] at h
  constructor <;> linarith [h.1, h.2]

-- ## The front wall base and tabs in concrete numbers

theorem mem_frontWallBase_iff (p : V3) :
    p ∈ frontWallBase ↔ |p.x| ≤ 50.8 ∧ |p.y| ≤ 1.905 ∧ |p.z - 38.1| ≤ 38.1 := by
  unfold frontWallBase
  rw [translate_box]
  unfold boxAt
  simp only [Set.mem_setOf_eq]
  rw [HOUSE_WIDTH_MM_val, WALL_THICKNESS_MM_val, WALL_HEIGHT_MM_val]
  norm_num

theorem left_tab_bounds (z : ℝ) :
    left_tab_at HOUSE_WIDTH_MM z ⊆ {p : V3 | -56.515 ≤ p.x ∧ p.x ≤ -48.895 ∧
      |p.y| ≤ 1.905 ∧ z - 3.81 ≤ p.z ∧ p.z ≤ z + 3.81} := by
  intro p hp
  rw [left_tab_at_eq] at hp
  obtain ⟨h1, h2, h3⟩ := hp
  dsimp only at h1 h2 h3
  simp only [HOUSE_WIDTH_MM_val, TAB_DEPTH_MM_val, TAB_WIDTH_MM_val,
    TAB_HEIGHT_MM_val, sub_zero] at h1 h2 h3
  rw [abs_le] at h1 h3
  refine ⟨by linarith [h1.1], by linarith [h1.2], by linarith [abs_le.1 h2],
    by linarith [h3.1], by linarith [h3.2]⟩

theorem right_tab_bounds (z : ℝ) :
    right_tab_at HOUSE_WIDTH_MM z ⊆ {p : V3 | 48.895 ≤ p.x ∧ p.x ≤ 56.515 ∧
      |p.y| ≤ 1.905 ∧ z - 3.81 ≤ p.z ∧ p.z ≤ z + 3.81} := by
  intro p hp
  rw [right_tab_at_eq] at hp
  obtain ⟨h1, h2, h3⟩ := hp
  dsimp only at h1 h2 h3
  simp only [HOUSE_WIDTH_MM_val, TAB_DEPTH_MM_val, TAB_WIDTH_MM_val,
    TAB_HEIGHT_MM_val, sub_zero] at h1 h2 h3
  rw [abs_le] at h1 h3
  refine ⟨by linarith [h1.1], by linarith [h1.2], by linarith [abs_le.1 h2],
    by linarith [h3.1], by linarith [h3.2]⟩

theorem createFrontWall_eq :
    createFrontWall =
      ((((((frontWallBase \ frontDoorCut) \ frontLeftWindowCut) \ frontRightWindowCut)
        ∪ left_tab_at HOUSE_WIDTH_MM (WALL_HEIGHT_MM * 0.25))
        ∪ right_tab_at HOUSE_WIDTH_MM (WALL_HEIGHT_MM * 0.25))
        ∪ left_tab_at HOUSE_WIDTH_MM (WALL_HEIGHT_MM * 0.75))
        ∪ right_tab_at HOUSE_WIDTH_MM (WALL_HEIGHT_MM * 0.75) := by
  unfold createFrontWall
  rw [addWallTabs_true_eq]

theorem mem_createFrontWall_cases (p : V3) (hp : p ∈ createFrontWall) :
    p ∈ frontWallBase ∨
      p ∈ left_tab_at HOUSE_WIDTH_MM (WALL_HEIGHT_MM * 0.25) ∨
      p ∈ right_tab_at HOUSE_WIDTH_MM (WALL_HEIGHT_MM * 0.25) ∨
      p ∈ left_tab_at HOUSE_WIDTH_MM (WALL_HEIGHT_MM * 0.75) ∨
      p ∈ right_tab_at HOUSE_WIDTH_MM (WALL_HEIGHT_MM * 0.75) := by
  rw [createFrontWall_eq] at hp
  rcases hp with ((((h | h) | h) | h) | h)
  · exact Or.inl h.1.1.1
  · exact Or.inr (Or.inl h)
  · exact Or.inr (Or.inr (Or.inl h))
  · exact Or.inr (Or.inr (Or.inr (Or.inl h)))
  · exact Or.inr (Or.inr (Or.inr (Or.inr h)))

/-- A point whose x-coordinate is 45 avoids all three cutting tools; if it is
in the base it therefore survives every cut and lies in the finished wall. -/
theorem x45_mem_createFrontWall (y z : ℝ) (hy : |y| ≤ 1.905) (hz : |z - 38.1| ≤ 38.1) :
    V3.mk 45 y z ∈ createFrontWall := by
  have hW : HOUSE_WIDTH_MM = 101.6 := HOUSE_WIDTH_MM_val
  rw [createFrontWall_eq]
  apply Set.mem_union_left
  apply Set.mem_union_left
  apply Set.mem_union_left
  apply Set.mem_union_left
  refine ⟨⟨⟨?_, ?_⟩, ?_⟩, ?_⟩
  · rw [mem_frontWallBase_iff]
    refine ⟨by rw [abs_le]; constructor <;> norm_num, hy, hz⟩
  · intro hc
    have h := (frontDoorCut_x _ hc).2
    dsimp only at h
    linarith
  · intro hc
    have h := (frontLeftWindowCut_x _ hc).2
    dsimp only at h
    rw [hW] at h
    linarith
  · intro hc
    have h := (frontRightWindowCut_x _ hc).2
    dsimp only at h
    rw [hW] at h
    linarith

-- ## Interior points of the three openings (witnesses that the cuts bite)

theorem door_mid_mem : V3.mk 0 0 30.48 ∈ frontDoorCut := by
  unfold frontDoorCut
  have hq : ((0, 27.94) : ℝ × ℝ)
      ∈ profileRegion (archPoints DOOR_WIDTH_MM DOOR_HEIGHT_MM none) := by
    have h := shoulder_mid_mem_profileRegion DOOR_WIDTH_MM DOOR_HEIGHT_MM none
      (by rw [door_rectHeightVal]; norm_num)
    rw [door_rectHeightVal] at h
    exact h
  have h := translate_arched_mem_of (V3.mk 0 0 DOOR_OFFSET_MM) DOOR_WIDTH_MM DOOR_HEIGHT_MM
    (WALL_THICKNESS_MM + 1) (0, 27.94) 0 hq
    (by rw [WALL_THICKNESS_MM_val]; norm_num) (by rw [WALL_THICKNESS_MM_val]; norm_num)
  dsimp only at h
  rw [show V3.mk ((0:ℝ) + 0) ((0:ℝ) + 0) (DOOR_OFFSET_MM + 27.94) = V3.mk (0:ℝ) 0 30.48 by
    simp only [V3.mk.injEq]
    rw [DOOR_OFFSET_MM_val]
    norm_num] at h
  exact h

theorem left_window_mid_mem :
    V3.mk (-(HOUSE_WIDTH_MM / 3)) 0 38.1 ∈ frontLeftWindowCut := by
  unfold frontLeftWindowCut
  have hq : ((0, 7.62) : ℝ × ℝ)
      ∈ profileRegion (archPoints WINDOW_WIDTH_MM WINDOW_HEIGHT_MM none) := by
    have h := shoulder_mid_mem_profileRegion WINDOW_WIDTH_MM WINDOW_HEIGHT_MM none
      (by rw [window_rectHeightVal]; norm_num)
    rw [window_rectHeightVal] at h
    exact h
  have h := translate_arched_mem_of (V3.mk (-(HOUSE_WIDTH_MM / 3)) 0 WINDOW_OFFSET_MM)
    WINDOW_WIDTH_MM WINDOW_HEIGHT_MM (WALL_THICKNESS_MM + 1) (0, 7.62) 0 hq
    (by rw [WALL_THICKNESS_MM_val]; norm_num) (by rw [WALL_THICKNESS_MM_val]; norm_num)
  dsimp only at h
  rw [show V3.mk (-(HOUSE_WIDTH_MM / 3) + 0) ((0:ℝ) + 0) (WINDOW_OFFSET_MM + 7.62)
      = V3.mk (-(HOUSE_WIDTH_MM / 3)) 0 38.1 by
    simp only [V3.mk.injEq]
    rw [WINDOW_OFFSET_MM_val]
    norm_num] at h
  exact h

/-- Exact symmetric y-extent of a translated arched cutting tool whose
translation has no y-component. -/
theorem archedCut_y_exact (c : V3) (w h dep : ℝ) (hcy : c.y = 0) (hdep : 0 ≤ dep)
    (hw : 0 ≤ w) (hah : 0 ≤ archHeightVal w h none) :
    translate c (createArchedOpening w h dep none) ⊆
      {p : V3 | -(dep / 2) ≤ p.y ∧ p.y ≤ dep / 2} ∧
    (∃ p ∈ translate c (createArchedOpening w h dep none), p.y = dep / 2) ∧
    (∃ p ∈ translate c (createArchedOpening w h dep none), p.y = -(dep / 2)) := by
  refine ⟨?_, ?_, ?_⟩
  · intro p hp
    have hb := translate_arched_subset_bounds c w h dep hw hah hp
    obtain ⟨-, h2, h3, -, -⟩ := hb
    rw [hcy] at h2 h3
    exact ⟨by linarith, by linarith⟩
  · refine ⟨V3.mk (c.x + (-w / 2)) (c.y + dep / 2) (c.z + 0), ?_, ?_⟩
    · exact translate_arched_mem_of c w h dep (-w / 2, 0) (dep / 2)
        (bottom_left_mem_profileRegion w h none) (by linarith) (by linarith)
    · dsimp only
      rw [hcy]
      ring
  · refine ⟨V3.mk (c.x + (-w / 2)) (c.y + -(dep / 2)) (c.z + 0), ?_, ?_⟩
    · exact translate_arched_mem_of c w h dep (-w / 2, 0) (-(dep / 2))
        (bottom_left_mem_profileRegion w h none) (by linarith) (by linarith)
    · dsimp only
      rw [hcy]
      ring

theorem right_window_mid_mem :
    V3.mk (HOUSE_WIDTH_MM / 3) 0 38.1 ∈ frontRightWindowCut := by
  unfold frontRightWindowCut
  have hq : ((0, 7.62) : ℝ × ℝ)
      ∈ profileRegion (archPoints WINDOW_WIDTH_MM WINDOW_HEIGHT_MM none) := by
    have h := shoulder_mid_mem_profileRegion WINDOW_WIDTH_MM WINDOW_HEIGHT_MM none
      (by rw [window_rectHeightVal]; norm_num)
    rw [window_rectHeightVal] at h
    exact h
  have h := translate_arched_mem_of (V3.mk (HOUSE_WIDTH_MM / 3) 0 WINDOW_OFFSET_MM)
    WINDOW_WIDTH_MM WINDOW_HEIGHT_MM (WALL_THICKNESS_MM + 1) (0, 7.62) 0 hq
    (by rw [WALL_THICKNESS_MM_val]; norm_num) (by rw [WALL_THICKNESS_MM_val]; norm_num)
  dsimp only at h
  rw [show V3.mk (HOUSE_WIDTH_MM / 3 + 0) ((0:ℝ) + 0) (WINDOW_OFFSET_MM + 7.62)
      = V3.mk (HOUSE_WIDTH_MM / 3) 0 38.1 by
    simp only [V3.mk.injEq]
    rw [WINDOW_OFFSET_MM_val]
    norm_num] at h
  exact h

-- ## Points survive or fail the cuts: assorted membership helpers

theorem not_mem_left_tab_of_x (p : V3) (z : ℝ) (hx : -48.895 < p.x) :
    p ∉ left_tab_at HOUSE_WIDTH_MM z := by
  intro hc
  obtain ⟨-, hb, -, -, -⟩ := left_tab_bounds z hc
  linarith

theorem not_mem_right_tab_of_x (p : V3) (z : ℝ) (hx : p.x < 48.895) :
    p ∉ right_tab_at HOUSE_WIDTH_MM z := by
  intro hc
  obtain ⟨hb, -, -, -, -⟩ := right_tab_bounds z hc
  linarith

/-- A point of one of the three openings whose x-coordinate stays clear of
the tab ranges is not in the finished front wall: the cut removed it and no
tab put it back. -/
theorem cut_point_not_mem_front_wall (p : V3)
    (hx1 : -48.895 < p.x) (hx2 : p.x < 48.895)
    (hcut : p ∈ frontDoorCut ∨ p ∈ frontLeftWindowCut ∨ p ∈ frontRightWindowCut) :
    p ∉ createFrontWall := by
  intro hc
  rw [createFrontWall_eq] at hc
  rcases hc with ((((h | h) | h) | h) | h)
  · rcases hcut with hd | hl | hr
    · exact h.1.1.2 hd
    · exact h.1.2 hl
    · exact h.2 hr
  · exact not_mem_left_tab_of_x p _ hx1 h
  · exact not_mem_right_tab_of_x p _ hx2 h
  · exact not_mem_left_tab_of_x p _ hx1 h
  · exact not_mem_right_tab_of_x p _ hx2 h

theorem tab_corner_right_mem : V3.mk 56.515 0 19.05 ∈ createFrontWall := by
  rw [createFrontWall_eq]
  apply Set.mem_union_left
  apply Set.mem_union_left
  apply Set.mem_union_right
  rw [right_tab_at_eq]
  refine ⟨?_, ?_, ?_⟩ <;>
    simp only [HOUSE_WIDTH_MM_val, TAB_DEPTH_MM_val, TAB_WIDTH_MM_val, TAB_HEIGHT_MM_val,
      WALL_HEIGHT_MM_val] <;>
    rw [abs_le] <;> constructor <;> norm_num

theorem tab_corner_left_mem : V3.mk (-56.515) 0 19.05 ∈ createFrontWall := by
  rw [createFrontWall_eq]
  apply Set.mem_union_left
  apply Set.mem_union_left
  apply Set.mem_union_left
  apply Set.mem_union_right
  rw [left_tab_at_eq]
  refine ⟨?_, ?_, ?_⟩ <;>
    simp only [HOUSE_WIDTH_MM_val, TAB_DEPTH_MM_val, TAB_WIDTH_MM_val, TAB_HEIGHT_MM_val,
      WALL_HEIGHT_MM_val] <;>
    rw [abs_le] <;> constructor <;> norm_num

-- ## Claim C7

/-- Claim C7: every door/window cutting tool used by a wall assembler is
extruded to `wall_thickness + 1` and centred on the wall-normal axis: its
y-extent is exactly the symmetric interval
`[-(thickness+1)/2, (thickness+1)/2]`, which strictly contains the wall's own
y-extent `[-thickness/2, thickness/2]`. -/
theorem cutting_tools_oversized_centred :
    WALL_THICKNESS_MM / 2 < (WALL_THICKNESS_MM + 1) / 2 ∧
    {y : ℝ | |y| ≤ WALL_THICKNESS_MM / 2} ⊆ {y : ℝ | |y| ≤ (WALL_THICKNESS_MM + 1) / 2} ∧
    (frontDoorCut ⊆
      {p : V3 | -((WALL_THICKNESS_MM + 1) / 2) ≤ p.y ∧ p.y ≤ (WALL_THICKNESS_MM + 1) / 2}) ∧
    (∃ p ∈ frontDoorCut, p.y = (WALL_THICKNESS_MM + 1) / 2) ∧
    (∃ p ∈ frontDoorCut, p.y = -((WALL_THICKNESS_MM + 1) / 2)) ∧
    (frontLeftWindowCut ⊆
      {p : V3 | -((WALL_THICKNESS_MM + 1) / 2) ≤ p.y ∧ p.y ≤ (WALL_THICKNESS_MM + 1) / 2}) ∧
    (∃ p ∈ frontLeftWindowCut, p.y = (WALL_THICKNESS_MM + 1) / 2) ∧
    (∃ p ∈ frontLeftWindowCut, p.y = -((WALL_THICKNESS_MM + 1) / 2)) ∧
    (frontRightWindowCut ⊆
      {p : V3 | -((WALL_THICKNESS_MM + 1) / 2) ≤ p.y ∧ p.y ≤ (WALL_THICKNESS_MM + 1) / 2}) ∧
    (∃ p ∈ frontRightWindowCut, p.y = (WALL_THICKNESS_MM + 1) / 2) ∧
    (∃ p ∈ frontRightWindowCut, p.y = -((WALL_THICKNESS_MM + 1) / 2)) ∧
    (backWindowCut ⊆
      {p : V3 | -((WALL_THICKNESS_MM + 1) / 2) ≤ p.y ∧ p.y ≤ (WALL_THICKNESS_MM + 1) / 2}) ∧
    (∃ p ∈ backWindowCut, p.y = (WALL_THICKNESS_MM + 1) / 2) ∧
    (∃ p ∈ backWindowCut, p.y = -((WALL_THICKNESS_MM + 1) / 2)) ∧
    (sideWindowCut ⊆
      {p : V3 | -((WALL_THICKNESS_MM + 1) / 2) ≤ p.y ∧ p.y ≤ (WALL_THICKNESS_MM + 1) / 2}) ∧
    (∃ p ∈ sideWindowCut, p.y = (WALL_THICKNESS_MM + 1) / 2) ∧
    (∃ p ∈ sideWindowCut, p.y = -((WALL_THICKNESS_MM + 1) / 2)) := by
  have hT : WALL_THICKNESS_MM = 3.81 := WALL_THICKNESS_MM_val
  have hdep : (0 : ℝ) ≤ WALL_THICKNESS_MM + 1 := by rw [hT]; norm_num
  have hdoor := archedCut_y_exact (V3.mk 0 0 DOOR_OFFSET_MM) DOOR_WIDTH_MM DOOR_HEIGHT_MM
    (WALL_THICKNESS_MM + 1) rfl hdep
    (by rw [DOOR_WIDTH_MM_val]; norm_num) (by rw [door_archHeightVal]; norm_num)
  have hlw := archedCut_y_exact (V3.mk (-(HOUSE_WIDTH_MM / 3)) 0 WINDOW_OFFSET_MM)
    WINDOW_WIDTH_MM WINDOW_HEIGHT_MM (WALL_THICKNESS_MM + 1) rfl hdep
    (by rw [WINDOW_WIDTH_MM_val]; norm_num) (by rw [window_archHeightVal]; norm_num)
  have hrw := archedCut_y_exact (V3.mk (HOUSE_WIDTH_MM / 3) 0 WINDOW_OFFSET_MM)
    WINDOW_WIDTH_MM WINDOW_HEIGHT_MM (WALL_THICKNESS_MM + 1) rfl hdep
    (by rw [WINDOW_WIDTH_MM_val]; norm_num) (by rw [window_archHeightVal]; norm_num)
  have hbw := archedCut_y_exact (V3.mk 0 0 WINDOW_OFFSET_MM)
    WINDOW_WIDTH_MM WINDOW_HEIGHT_MM (WALL_THICKNESS_MM + 1) rfl hdep
    (by rw [WINDOW_WIDTH_MM_val]; norm_num) (by rw [window_archHeightVal]; norm_num)
  refine ⟨by rw [hT]; norm_num, ?_, hdoor.1, hdoor.2.1, hdoor.2.2, hlw.1, hlw.2.1, hlw.2.2,
    hrw.1, hrw.2.1, hrw.2.2, hbw.1, hbw.2.1, hbw.2.2, hbw.1, hbw.2.1, hbw.2.2⟩
  intro y hy
  simp only [Set.mem_setOf_eq] at hy ⊢
  rw [abs_le] at hy ⊢
  constructor <;> linarith [hy.1, hy.2]

-- ## Claim C2

/-- Claim C2 counterexample: the finished front wall contains the point
`(56.515, 0, 19.05)` (the outer corner of one of the tabs added by
`add_wall_tabs`), whose x-coordinate exceeds half of 101.6 mm, so the wall's
bounding box is wider than the claimed 101.6 mm. -/
theorem front_wall_bbox_claim_false :
    V3.mk 56.515 0 19.05 ∈ createFrontWall ∧ (101.6 : ℝ) / 2 < 56.515 :=
  ⟨tab_corner_right_mem, by norm_num⟩

/-- Claim C2 as amended: with the example dimensions, the finished front wall
has the exact bounding box 113.03 x 3.81 x 76.2 mm (the four tabs widen it
beyond the 101.6 mm wall span); the arched-door tool removes material only
inside x in `[-10.16, 10.16]`, z in `[2.54, 40.64]`, and genuinely removes
material there (a base-wall point inside it is absent from the finished
solid); the two window tools are centred at x = ±101.6/3 (about ±33.87 mm),
reach at most 7.62 mm from their centres, and both genuinely cut voids. -/
theorem front_wall_dimensions_and_voids :
    createFrontWall ⊆ {p : V3 | -56.515 ≤ p.x ∧ p.x ≤ 56.515 ∧
      -1.905 ≤ p.y ∧ p.y ≤ 1.905 ∧ 0 ≤ p.z ∧ p.z ≤ 76.2} ∧
    (∃ p ∈ createFrontWall, p.x = 56.515) ∧
    (∃ p ∈ createFrontWall, p.x = -56.515) ∧
    (∃ p ∈ createFrontWall, p.y = 1.905) ∧
    (∃ p ∈ createFrontWall, p.y = -1.905) ∧
    (∃ p ∈ createFrontWall, p.z = 0) ∧
    (∃ p ∈ createFrontWall, p.z = 76.2) ∧
    frontDoorCut ⊆ {p : V3 | -10.16 ≤ p.x ∧ p.x ≤ 10.16 ∧ 2.54 ≤ p.z ∧ p.z ≤ 40.64} ∧
    (V3.mk 0 0 30.48 ∈ frontWallBase ∧ V3.mk 0 0 30.48 ∈ frontDoorCut ∧
      V3.mk 0 0 30.48 ∉ createFrontWall) ∧
    frontLeftWindowCut ⊆ {p : V3 | |p.x + HOUSE_WIDTH_MM / 3| ≤ 7.62} ∧
    frontRightWindowCut ⊆ {p : V3 | |p.x - HOUSE_WIDTH_MM / 3| ≤ 7.62} ∧
    (V3.mk (-(HOUSE_WIDTH_MM / 3)) 0 38.1 ∈ frontWallBase ∧
      V3.mk (-(HOUSE_WIDTH_MM / 3)) 0 38.1 ∈ frontLeftWindowCut ∧
      V3.mk (-(HOUSE_WIDTH_MM / 3)) 0 38.1 ∉ createFrontWall) ∧
    (V3.mk (HOUSE_WIDTH_MM / 3) 0 38.1 ∈ frontWallBase ∧
      V3.mk (HOUSE_WIDTH_MM / 3) 0 38.1 ∈ frontRightWindowCut ∧
      V3.mk (HOUSE_WIDTH_MM / 3) 0 38.1 ∉ createFrontWall) ∧
    HOUSE_WIDTH_MM / 3 = 101.6 / 3 := by
  have hW : HOUSE_WIDTH_MM = 101.6 := HOUSE_WIDTH_MM_val
  have hH : WALL_HEIGHT_MM = 76.2 := WALL_HEIGHT_MM_val
  have hq25 : WALL_HEIGHT_MM * 0.25 = 19.05 := by rw [hH]; norm_num
  have hq75 : WALL_HEIGHT_MM * 0.75 = 57.15 := by rw [hH]; norm_num
  refine ⟨?_, ?_, ?_, ?_, ?_, ?_, ?_, ?_, ?_, ?_, ?_, ?_, ?_, by rw [hW]⟩
  · intro p hp
    rcases mem_createFrontWall_cases p hp with h | h | h | h | h
    · obtain ⟨h1, h2, h3⟩ := (mem_frontWallBase_iff p).1 h
      rw [abs_le] at h1 h2 h3
      exact ⟨by linarith [h1.1], by linarith [h1.2], by linarith [h2.1], by linarith [h2.2],
        by linarith [h3.1], by linarith [h3.2]⟩
    · obtain ⟨h1, h2, h3, h4, h5⟩ := left_tab_bounds _ h
      rw [abs_le] at h3
      rw [hq25] at h4 h5
      exact ⟨by linarith, by linarith, by linarith [h3.1], by linarith [h3.2],
        by linarith, by linarith⟩
    · obtain ⟨h1, h2, h3, h4, h5⟩ := right_tab_bounds _ h
      rw [abs_le] at h3
      rw [hq25] at h4 h5
      exact ⟨by linarith, by linarith, by linarith [h3.1], by linarith [h3.2],
        by linarith, by linarith⟩
    · obtain ⟨h1, h2, h3, h4, h5⟩ := left_tab_bounds _ h
      rw [abs_le] at h3
      rw [hq75] at h4 h5
      exact ⟨by linarith, by linarith, by linarith [h3.1], by linarith [h3.2],
        by linarith, by linarith⟩
    · obtain ⟨h1, h2, h3, h4, h5⟩ := right_tab_bounds _ h
      rw [abs_le] at h3
      rw [hq75] at h4 h5
      exact ⟨by linarith, by linarith, by linarith [h3.1], by linarith [h3.2],
        by linarith, by linarith⟩
  · exact ⟨V3.mk 56.515 0 19.05, tab_corner_right_mem, rfl⟩
  · exact ⟨V3.mk (-56.515) 0 19.05, tab_corner_left_mem, rfl⟩
  · exact ⟨V3.mk 45 1.905 50,
      x45_mem_createFrontWall 1.905 50 (by rw [abs_le]; constructor <;> norm_num)
        (by rw [abs_le]; constructor <;> norm_num), rfl⟩
  · exact ⟨V3.mk 45 (-1.905) 50,
      x45_mem_createFrontWall (-1.905) 50 (by rw [abs_le]; constructor <;> norm_num)
        (by rw [abs_le]; constructor <;> norm_num), rfl⟩
  · exact ⟨V3.mk 45 0 0,
      x45_mem_createFrontWall 0 0 (by rw [abs_le]; constructor <;> norm_num)
        (by rw [abs_le]; constructor <;> norm_num), rfl⟩
  · exact ⟨V3.mk 45 0 76.2,
      x45_mem_createFrontWall 0 76.2 (by rw [abs_le]; constructor <;> norm_num)
        (by rw [abs_le]; constructor <;> norm_num), rfl⟩
  · intro p hp
    obtain ⟨h1, -, -, h4, h5⟩ := frontDoorCut_subset hp
    rw [abs_le] at h1
    exact ⟨h1.1, h1.2, h4, h5⟩
  · refine ⟨?_, door_mid_mem, ?_⟩
    · rw [mem_frontWallBase_iff]
      refine ⟨?_, ?_, ?_⟩ <;> rw [abs_le] <;> constructor <;> norm_num
    · exact cut_point_not_mem_front_wall _ (by dsimp only; norm_num)
        (by dsimp only; norm_num) (Or.inl door_mid_mem)
  · intro p hp
    exact (frontLeftWindowCut_subset hp).1
  · intro p hp
    exact (frontRightWindowCut_subset hp).1
  · refine ⟨?_, left_window_mid_mem, ?_⟩
    · rw [mem_frontWallBase_iff]
      norm_num [hW, abs_le]
    · exact cut_point_not_mem_front_wall _ (by dsimp only; rw [hW]; norm_num)
        (by dsimp only; rw [hW]; norm_num) (Or.inr (Or.inl left_window_mid_mem))
  · refine ⟨?_, right_window_mid_mem, ?_⟩
    · rw [mem_frontWallBase_iff]
      norm_num [hW, abs_le]
    · exact cut_point_not_mem_front_wall _ (by dsimp only; rw [hW]; norm_num)
        (by dsimp only; rw [hW]; norm_num) (Or.inr (Or.inr right_window_mid_mem))

-- ## Claim C4

/-- Claim C4 counterexample: the point `(50, 0, 19.05)` lies both in the
front wall being decorated (it survives all three cuts) and in the wall's
right tab, although its x-coordinate is not on either edge face
x = ±50.8 mm — the tab is partially embedded in the wall, not flush. -/
theorem wall_tab_flush_claim_false :
    V3.mk 50 0 19.05 ∈ right_tab_at HOUSE_WIDTH_MM (WALL_HEIGHT_MM * 0.25) ∧
    V3.mk 50 0 19.05 ∈
      ((frontWallBase \ frontDoorCut) \ frontLeftWindowCut) \ frontRightWindowCut ∧
    V3.mk 50 0 19.05 ∈ createFrontWall ∧
    (50 : ℝ) ≠ HOUSE_WIDTH_MM / 2 ∧ (50 : ℝ) ≠ -(HOUSE_WIDTH_MM / 2) := by
  have hW : HOUSE_WIDTH_MM = 101.6 := HOUSE_WIDTH_MM_val
  have htab : V3.mk 50 0 19.05 ∈ right_tab_at HOUSE_WIDTH_MM (WALL_HEIGHT_MM * 0.25) := by
    rw [right_tab_at_eq]
    refine ⟨?_, ?_, ?_⟩ <;>
      simp only [HOUSE_WIDTH_MM_val, TAB_DEPTH_MM_val, TAB_WIDTH_MM_val, TAB_HEIGHT_MM_val,
        WALL_HEIGHT_MM_val] <;>
      rw [abs_le] <;> constructor <;> norm_num
  have hwall : V3.mk 50 0 19.05 ∈
      ((frontWallBase \ frontDoorCut) \ frontLeftWindowCut) \ frontRightWindowCut := by
    refine ⟨⟨⟨?_, ?_⟩, ?_⟩, ?_⟩
    · rw [mem_frontWallBase_iff]
      refine ⟨?_, ?_, ?_⟩ <;> rw [abs_le] <;> constructor <;> norm_num
    · intro hc
      have h := (frontDoorCut_x _ hc).2
      dsimp only at h
      linarith
    · intro hc
      have h := (frontLeftWindowCut_x _ hc).2
      dsimp only at h
      rw [hW] at h
      linarith
    · intro hc
      have h := (frontRightWindowCut_x _ hc).2
      dsimp only at h
      rw [hW] at h
      linarith
  refine ⟨htab, hwall, ?_, by rw [hW]; norm_num, by rw [hW]; norm_num⟩
  rw [createFrontWall_eq]
  apply Set.mem_union_left
  apply Set.mem_union_left
  apply Set.mem_union_left
  apply Set.mem_union_left
  exact hwall

/-- Claim C4 as amended: `add_wall_tabs` unions four tabs per front/back
wall, each centred at its z-position and offset outward by half the tab
depth; but because the tab box's x-extent is `tab_width/2 = 3.81` mm on each
side of its centre while the offset is only `tab_depth/2 = 1.905` mm, the
tab's inner face `x = wall_width/2 - (tab_width - tab_depth)/2` lies strictly
inside the wall's span for every wall width: the tab is partially embedded
in the wall rather than flush against its edge face. -/
theorem wall_tabs_union_offset_embedded (ww hh t : ℝ) (wall : Solid) :
    addWallTabs wall ww hh t true =
      (((wall ∪ left_tab_at ww (hh * 0.25)) ∪ right_tab_at ww (hh * 0.25))
        ∪ left_tab_at ww (hh * 0.75)) ∪ right_tab_at ww (hh * 0.75) ∧
    (∀ z, right_tab_at ww z =
      boxAt (V3.mk (ww / 2 + TAB_DEPTH_MM / 2) 0 z) TAB_WIDTH_MM TAB_DEPTH_MM TAB_HEIGHT_MM) ∧
    (∀ z, left_tab_at ww z =
      boxAt (V3.mk (-ww / 2 - TAB_DEPTH_MM / 2) 0 z) TAB_WIDTH_MM TAB_DEPTH_MM TAB_HEIGHT_MM) ∧
    TAB_DEPTH_MM < TAB_WIDTH_MM ∧
    ww / 2 + TAB_DEPTH_MM / 2 - TAB_WIDTH_MM / 2 < ww / 2 ∧
    (∀ z, V3.mk (ww / 2 - (TAB_WIDTH_MM - TAB_DEPTH_MM) / 2) 0 z ∈ right_tab_at ww z) := by
  have hd : TAB_DEPTH_MM = 3.81 := TAB_DEPTH_MM_val
  have hw : TAB_WIDTH_MM = 7.62 := TAB_WIDTH_MM_val
  refine ⟨addWallTabs_true_eq wall ww hh t, right_tab_at_eq ww, left_tab_at_eq ww,
    by rw [hd, hw]; norm_num, by rw [hd, hw]; linarith, ?_⟩
  intro z
  rw [right_tab_at_eq]
  refine ⟨?_, ?_, ?_⟩ <;> dsimp only
  · rw [hd, hw, abs_le]
    constructor <;> linarith
  · rw [hd, sub_zero, abs_le]
    constructor <;> norm_num
  · rw [sub_self, abs_zero, TAB_HEIGHT_MM_val]
    norm_num

-- ## Plane-segment lemmas

theorem seg_decomp {A B p : ℝ × ℝ} (h : p ∈ segment ℝ A B) :
    ∃ s t : ℝ, 0 ≤ s ∧ 0 ≤ t ∧ s + t = 1 ∧
      p.1 = s * A.1 + t * B.1 ∧ p.2 = s * A.2 + t * B.2 := by
  obtain ⟨s, t, hs, ht, hst, hp⟩ := h
  refine ⟨s, t, hs, ht, hst, ?_, ?_⟩ <;> rw [← hp] <;>
    simp [Prod.fst_add, Prod.snd_add, Prod.smul_fst, Prod.smul_snd, smul_eq_mul]

theorem seg_fst_bounds {A B p : ℝ × ℝ} (h : p ∈ segment ℝ A B) :
    min A.1 B.1 ≤ p.1 ∧ p.1 ≤ max A.1 B.1 := by
  obtain ⟨s, t, hs, ht, hst, h1, -⟩ := seg_decomp h
  constructor
  · have h2 := mul_le_mul_of_nonneg_left (min_le_left A.1 B.1) hs
    have h3 := mul_le_mul_of_nonneg_left (min_le_right A.1 B.1) ht
    have h4 : s * min A.1 B.1 + t * min A.1 B.1 = min A.1 B.1 := by
      linear_combination (min A.1 B.1) * hst
    linarith
  · have h2 := mul_le_mul_of_nonneg_left (le_max_left A.1 B.1) hs
    have h3 := mul_le_mul_of_nonneg_left (le_max_right A.1 B.1) ht
    have h4 : s * max A.1 B.1 + t * max A.1 B.1 = max A.1 B.1 := by
      linear_combination (max A.1 B.1) * hst
    linarith

theorem seg_snd_bounds {A B p : ℝ × ℝ} (h : p ∈ segment ℝ A B) :
    min A.2 B.2 ≤ p.2 ∧ p.2 ≤ max A.2 B.2 := by
  obtain ⟨s, t, hs, ht, hst, -, h2⟩ := seg_decomp h
  constructor
  · have h3 := mul_le_mul_of_nonneg_left (min_le_left A.2 B.2) hs
    have h4 := mul_le_mul_of_nonneg_left (min_le_right A.2 B.2) ht
    have h5 : s * min A.2 B.2 + t * min A.2 B.2 = min A.2 B.2 := by
      linear_combination (min A.2 B.2) * hst
    linarith
  · have h3 := mul_le_mul_of_nonneg_left (le_max_left A.2 B.2) hs
    have h4 := mul_le_mul_of_nonneg_left (le_max_right A.2 B.2) ht
    have h5 : s * max A.2 B.2 + t * max A.2 B.2 = max A.2 B.2 := by
      linear_combination (max A.2 B.2) * hst
    linarith

theorem seg_fst_between {A B p : ℝ × ℝ} (hAB : A.1 ≤ B.1) (h : p ∈ segment ℝ A B) :
    A.1 ≤ p.1 ∧ p.1 ≤ B.1 := by
  have hb := seg_fst_bounds h
  rw [min_eq_left hAB, max_eq_right hAB] at hb
  exact hb

theorem seg_snd_between {A B p : ℝ × ℝ} (hAB : A.2 ≤ B.2) (h : p ∈ segment ℝ A B) :
    A.2 ≤ p.2 ∧ p.2 ≤ B.2 := by
  have hb := seg_snd_bounds h
  rw [min_eq_left hAB, max_eq_right hAB] at hb
  exact hb

theorem seg_fst_const {A B p : ℝ × ℝ} (hAB : A.1 = B.1) (h : p ∈ segment ℝ A B) :
    p.1 = A.1 := by
  obtain ⟨s, t, hs, ht, hst, h1, -⟩ := seg_decomp h
  rw [h1, ← hAB]
  linear_combination A.1 * hst

theorem seg_snd_const {A B p : ℝ × ℝ} (hAB : A.2 = B.2) (h : p ∈ segment ℝ A B) :
    p.2 = A.2 := by
  obtain ⟨s, t, hs, ht, hst, -, h2⟩ := seg_decomp h
  rw [h2, ← hAB]
  linear_combination A.2 * hst

theorem seg_fst_left {A B p : ℝ × ℝ} (hAB : A.1 < B.1) (h : p ∈ segment ℝ A B)
    (he : p.1 = A.1) : p = A := by
  obtain ⟨s, t, hs, ht, hst, h1, h2⟩ := seg_decomp h
  have h5 : s * A.1 + t * B.1 = A.1 := by rw [← h1, he]
  have h4 : t * (B.1 - A.1) = 0 := by linear_combination h5 - A.1 * hst
  have ht0 : t = 0 := by
    rcases mul_eq_zero.1 h4 with h6 | h6
    · exact h6
    · exfalso; linarith
  have hs1 : s = 1 := by linarith
  rw [Prod.ext_iff]
  exact ⟨he, by rw [h2, ht0, hs1]; ring⟩

theorem seg_fst_right {A B p : ℝ × ℝ} (hAB : A.1 < B.1) (h : p ∈ segment ℝ A B)
    (he : p.1 = B.1) : p = B := by
  obtain ⟨s, t, hs, ht, hst, h1, h2⟩ := seg_decomp h
  have h5 : s * A.1 + t * B.1 = B.1 := by rw [← h1, he]
  have h4 : s * (B.1 - A.1) = 0 := by linear_combination B.1 * hst - h5
  have hs0 : s = 0 := by
    rcases mul_eq_zero.1 h4 with h6 | h6
    · exact h6
    · exfalso; linarith
  have ht1 : t = 1 := by linarith
  rw [Prod.ext_iff]
  exact ⟨he, by rw [h2, hs0, ht1]; ring⟩

theorem seg_snd_left {A B p : ℝ × ℝ} (hAB : A.2 < B.2) (h : p ∈ segment ℝ A B)
    (he : p.2 = A.2) : p = A := by
  obtain ⟨s, t, hs, ht, hst, h1, h2⟩ := seg_decomp h
  have h5 : s * A.2 + t * B.2 = A.2 := by rw [← h2, he]
  have h4 : t * (B.2 - A.2) = 0 := by linear_combination h5 - A.2 * hst
  have ht0 : t = 0 := by
    rcases mul_eq_zero.1 h4 with h6 | h6
    · exact h6
    · exfalso; linarith
  have hs1 : s = 1 := by linarith
  rw [Prod.ext_iff]
  exact ⟨by rw [h1, ht0, hs1]; ring, he⟩

theorem seg_snd_right {A B p : ℝ × ℝ} (hAB : A.2 < B.2) (h : p ∈ segment ℝ A B)
    (he : p.2 = B.2) : p = B := by
  obtain ⟨s, t, hs, ht, hst, h1, h2⟩ := seg_decomp h
  have h5 : s * A.2 + t * B.2 = B.2 := by rw [← h2, he]
  have h4 : s * (B.2 - A.2) = 0 := by linear_combination B.2 * hst - h5
  have hs0 : s = 0 := by
    rcases mul_eq_zero.1 h4 with h6 | h6
    · exact h6
    · exfalso; linarith
  have ht1 : t = 1 := by linarith
  rw [Prod.ext_iff]
  exact ⟨by rw [h1, hs0, ht1]; ring, he⟩

-- ## The chain of arch samples

theorem archChainPoint_x_lt (a ah rh : ℝ) (ha : 0 < a) {i j : ℕ} (hij : i < j)
    (hj : j ≤ 16) : (archChainPoint a ah rh i).1 < (archChainPoint a ah rh j).1 := by
  unfold archChainPoint
  dsimp only
  have hπ := Real.pi_pos
  have hij2 : (i : ℝ) < (j : ℝ) := by exact_mod_cast hij
  have hj2 : (j : ℝ) ≤ 16 := by exact_mod_cast hj
  have hi0 : (0 : ℝ) ≤ (i : ℝ) := Nat.cast_nonneg i
  have hmi : Real.pi * i / 16 ∈ Set.Icc 0 Real.pi := by
    constructor
    · positivity
    · rw [div_le_iff (by norm_num : (0:ℝ) < 16)]
      nlinarith
  have hmj : Real.pi * j / 16 ∈ Set.Icc 0 Real.pi := by
    constructor
    · positivity
    · rw [div_le_iff (by norm_num : (0:ℝ) < 16)]
      nlinarith
  have hlt : Real.pi * i / 16 < Real.pi * j / 16 := by
    have h1 : Real.pi * i < Real.pi * j := by nlinarith
    linarith
  have hcos := Real.strictAntiOn_cos hmi hmj hlt
  nlinarith

theorem archChainPoint_z_ge (a ah rh : ℝ) (hah : 0 ≤ ah) {i : ℕ} (hi : i ≤ 16) :
    rh ≤ (archChainPoint a ah rh i).2 := by
  unfold archChainPoint
  dsimp only
  have hπ := Real.pi_pos
  have hi2 : (i : ℝ) ≤ 16 := by exact_mod_cast hi
  have hi0 : (0 : ℝ) ≤ (i : ℝ) := Nat.cast_nonneg i
  have hsin : 0 ≤ Real.sin (Real.pi * i / 16) := by
    apply Real.sin_nonneg_of_nonneg_of_le_pi
    · positivity
    · rw [div_le_iff (by norm_num : (0:ℝ) < 16)]
      nlinarith
  nlinarith

theorem archChainPoint_z_gt (a ah rh : ℝ) (hah : 0 < ah) {i : ℕ} (hi0 : 1 ≤ i)
    (hi : i ≤ 15) : rh < (archChainPoint a ah rh i).2 := by
  unfold archChainPoint
  dsimp only
  have hπ := Real.pi_pos
  have hi2 : (i : ℝ) ≤ 15 := by exact_mod_cast hi
  have hi1 : (1 : ℝ) ≤ (i : ℝ) := by exact_mod_cast hi0
  have hsin : 0 < Real.sin (Real.pi * i / 16) := by
    apply Real.sin_pos_of_pos_of_lt_pi
    · positivity
    · rw [div_lt_iff (by norm_num : (0:ℝ) < 16)]
      nlinarith
  nlinarith

theorem archChainPoint_zero (a ah rh : ℝ) : archChainPoint a ah rh 0 = (-a, rh) := by
  unfold archChainPoint
  simp

theorem archChainPoint_sixteen (a ah rh : ℝ) : archChainPoint a ah rh 16 = (a, rh) := by
  unfold archChainPoint
  rw [show Real.pi * ((16 : ℕ) : ℝ) / 16 = Real.pi by push_cast; ring]
  rw [Real.cos_pi, Real.sin_pi]
  norm_num

theorem archChainPoint_reflect (a ah rh : ℝ) {i : ℕ} (hi : i ≤ 16) :
    (-(archChainPoint a ah rh i).1, (archChainPoint a ah rh i).2)
      = archChainPoint a ah rh (16 - i) := by
  unfold archChainPoint
  dsimp only
  have hcast : ((16 - i : ℕ) : ℝ) = 16 - (i : ℝ) := by
    rw [Nat.cast_sub hi]
    norm_num
  rw [Prod.mk.injEq]
  constructor
  · rw [hcast, show Real.pi * (16 - (i : ℝ)) / 16 = Real.pi - Real.pi * i / 16 by ring,
      Real.cos_pi_sub]
    ring
  · rw [hcast, show Real.pi * (16 - (i : ℝ)) / 16 = Real.pi - Real.pi * i / 16 by ring,
      Real.sin_pi_sub]

-- ## Bridging the source's vertex list to the uniform chain

theorem archSamplePoint_eq_chain (w rect arch : ℝ) (i : ℕ) :
    archSamplePoint w rect arch i = archChainPoint (w / 2) arch rect i := by
  unfold archSamplePoint archChainPoint
  have hseg : ((ARCH_SEGMENTS : ℕ) : ℝ) = 16 := by unfold ARCH_SEGMENTS; norm_num
  rw [hseg, Real.cos_pi_sub, Real.sin_pi_sub, Prod.mk.injEq]
  exact ⟨by ring, rfl⟩

theorem archPoints_eq_chain (w h : ℝ) (opt : Option ℝ) :
    archPoints w h opt =
      if rectHeightVal w h opt > 0 then
        [(-w / 2, 0)] ++ (List.range 17).map
          (archChainPoint (w / 2) (archHeightVal w h opt) (rectHeightVal w h opt))
          ++ [(w / 2, 0)]
      else (List.range 17).map
          (archChainPoint (w / 2) (archHeightVal w h opt) (rectHeightVal w h opt)) := by
  have hfun : archSamplePoint w (rectHeightVal w h opt) (archHeightVal w h opt)
      = archChainPoint (w / 2) (archHeightVal w h opt) (rectHeightVal w h opt) :=
    funext fun i => archSamplePoint_eq_chain w _ _ i
  have hrange : List.range 17 = 0 :: (List.range' 1 15 ++ [16]) := by decide
  have hrh0 := rectHeightVal_nonneg w h opt
  unfold archPoints
  dsimp only
  rw [hfun, hrange]
  simp only [List.map_cons, List.map_append, List.map_cons, List.map_nil]
  rw [archChainPoint_zero, archChainPoint_sixteen]
  split_ifs with hpos
  · simp only [List.cons_append, List.nil_append, List.append_assoc, List.singleton_append]
    rw [show -w / 2 = -(w / 2) by ring]
    norm_num [ARCH_SEGMENTS]
  · have hz : rectHeightVal w h opt = 0 := le_antisymm (not_lt.1 hpos) hrh0
    rw [hz]
    simp only [List.cons_append, List.nil_append, List.append_assoc, List.singleton_append]
    rw [show -w / 2 = -(w / 2) by ring]
    norm_num [ARCH_SEGMENTS]

-- ## Derived facts about the vertex list

theorem archHeightVal_pos (w h : ℝ) (opt : Option ℝ) (hw : 0 < w) (hh : 0 < h)
    (hsup : ∀ aa, aa ∈ opt → 0 < aa) : 0 < archHeightVal w h opt := by
  unfold archHeightVal
  dsimp only
  cases opt with
  | none =>
    simp only [Option.getD_none]
    split_ifs
    · exact hh
    · positivity
  | some aa =>
    simp only [Option.getD_some]
    split_ifs
    · exact hh
    · exact hsup aa rfl

theorem archChain_map_nodup (a ah rh : ℝ) (ha : 0 < a) :
    ((List.range 17).map (archChainPoint a ah rh)).Nodup := by
  refine List.Nodup.map_on ?_ (List.nodup_range 17)
  intro i hi j hj hf
  rw [List.mem_range] at hi hj
  by_contra hne
  rcases Nat.lt_or_ge i j with hlt | hge
  · have hx := archChainPoint_x_lt a ah rh ha hlt (by omega)
    rw [hf] at hx
    exact lt_irrefl _ hx
  · have hlt2 : j < i := by omega
    have hx := archChainPoint_x_lt a ah rh ha hlt2 (by omega)
    rw [hf] at hx
    exact lt_irrefl _ hx

theorem archChain_mem_z_ge (a ah rh : ℝ) (hah : 0 ≤ ah) (q : ℝ × ℝ)
    (hq : q ∈ (List.range 17).map (archChainPoint a ah rh)) : rh ≤ q.2 := by
  rw [List.mem_map] at hq
  obtain ⟨i, hi, rfl⟩ := hq
  rw [List.mem_range] at hi
  exact archChainPoint_z_ge a ah rh hah (by omega)

theorem archPoints_nodup_of_rh_pos (w h : ℝ) (opt : Option ℝ) (hw : 0 < w)
    (hah : 0 ≤ archHeightVal w h opt) (hrh : 0 < rectHeightVal w h opt) :
    (archPoints w h opt).Nodup := by
  rw [archPoints_eq_chain, if_pos hrh]
  have ha2 : 0 < w / 2 := by linarith
  rw [List.append_assoc, List.singleton_append, List.nodup_cons, List.nodup_append]
  refine ⟨?_, archChain_map_nodup _ _ _ ha2, ?_, ?_⟩
  · intro hmem
    rw [List.mem_append] at hmem
    rcases hmem with hmem | hmem
    · have hz := archChain_mem_z_ge (w / 2) _ _ hah _ hmem
      dsimp only at hz
      linarith
    · rw [List.mem_singleton, Prod.mk.injEq] at hmem
      obtain ⟨h1, -⟩ := hmem
      linarith
  · exact List.nodup_singleton _
  · intro q hq
    rw [List.mem_singleton]
    intro he
    subst he
    have hz := archChain_mem_z_ge (w / 2) _ _ hah _ hq
    dsimp only at hz
    linarith

theorem archPoints_nodup_of_rh_zero (w h : ℝ) (opt : Option ℝ) (hw : 0 < w)
    (hrh : ¬rectHeightVal w h opt > 0) : (archPoints w h opt).Nodup := by
  rw [archPoints_eq_chain, if_neg hrh]
  exact archChain_map_nodup _ _ _ (by linarith)

theorem archPoints_symm (w h : ℝ) (opt : Option ℝ) (q : ℝ × ℝ)
    (hmem : q ∈ archPoints w h opt) : (-q.1, q.2) ∈ archPoints w h opt := by
  rw [archPoints_eq_chain] at hmem ⊢
  split_ifs at hmem ⊢ with hrh
  · simp only [List.mem_append, List.mem_singleton, List.mem_map, List.mem_range] at hmem ⊢
    rcases hmem with (rfl | ⟨i, hi, rfl⟩) | rfl
    · right
      rw [Prod.mk.injEq]
      constructor <;> ring
    · left; right
      refine ⟨16 - i, by omega, ?_⟩
      rw [← archChainPoint_reflect (w / 2) _ _ (by omega : i ≤ 16)]
    · left; left
      rw [Prod.mk.injEq]
      constructor <;> ring
  · simp only [List.mem_map, List.mem_range] at hmem ⊢
    obtain ⟨i, hi, rfl⟩ := hmem
    refine ⟨16 - i, by omega, ?_⟩
    rw [← archChainPoint_reflect (w / 2) _ _ (by omega : i ≤ 16)]

-- ## Non-self-intersection of the arched profile

/-- Two edges of the x-monotone chain meet at most in their shared vertex. -/
theorem chain_edges_interact (a ah rh : ℝ) (ha : 0 < a) {k m : ℕ} (hk : k < m)
    (hm : m ≤ 15) :
    segment ℝ (archChainPoint a ah rh k) (archChainPoint a ah rh (k + 1)) ∩
      segment ℝ (archChainPoint a ah rh m) (archChainPoint a ah rh (m + 1)) ⊆
      (if m = k + 1 then {archChainPoint a ah rh m} else ∅) := by
  intro p hp
  obtain ⟨hp1, hp2⟩ := hp
  have hb1 := seg_fst_between
    (le_of_lt (archChainPoint_x_lt a ah rh ha (Nat.lt_succ_self k) (by omega))) hp1
  have hb2 := seg_fst_between
    (le_of_lt (archChainPoint_x_lt a ah rh ha (Nat.lt_succ_self m) (by omega))) hp2
  split_ifs with hadj
  · subst hadj
    have he : p.1 = (archChainPoint a ah rh (k + 1)).1 := le_antisymm hb1.2 hb2.1
    have hpt := seg_fst_right
      (archChainPoint_x_lt a ah rh ha (Nat.lt_succ_self k) (by omega)) hp1 he
    rw [Set.mem_singleton_iff]
    exact hpt
  · exfalso
    have hlt := archChainPoint_x_lt a ah rh ha (show k + 1 < m by omega) (by omega)
    linarith [hb1.2, hb2.1]

/-- The closed polygon bottom-left corner, chain, bottom-right corner (the
arched profile with a positive rectangular sub-height) is simple. -/
theorem simple_of_form_pos (a ah rh : ℝ) (ha : 0 < a) (hah : 0 ≤ ah) (hrh : 0 < rh) :
    IsSimplePolygon (((-a, 0) : ℝ × ℝ) ::
      ((List.range 17).map (archChainPoint a ah rh) ++ [((a, 0) : ℝ × ℝ)])) := by
  set L : List (ℝ × ℝ) := ((-a, 0) : ℝ × ℝ) ::
    ((List.range 17).map (archChainPoint a ah rh) ++ [((a, 0) : ℝ × ℝ)]) with hL
  have hlen : L.length = 19 := by rw [hL]; simp
  have hg0 : L.getD 0 (0, 0) = (-a, 0) := rfl
  have hgc : ∀ k, k < 17 → L.getD (k + 1) (0, 0) = archChainPoint a ah rh k := by
    intro k hk
    rw [hL, List.getD_cons_succ, List.getD_append _ _ _ _ (by simpa using hk)]
    rw [List.getD_eq_getElem?_getD, List.getElem?_map, List.getElem?_range hk]
    rfl
  have hg18 : L.getD 18 (0, 0) = (a, 0) := by
    rw [hL, List.getD_cons_succ, List.getD_append_right _ _ _ _ (by simp)]
    simp
  have hedge : ∀ k, polygonEdge L k
      = segment ℝ (L.getD k (0, 0)) (L.getD ((k + 1) % 19) (0, 0)) := by
    intro k
    unfold polygonEdge
    rw [hlen]
  have hc0 : archChainPoint a ah rh 0 = (-a, rh) := archChainPoint_zero a ah rh
  have hc16 : archChainPoint a ah rh 16 = (a, rh) := archChainPoint_sixteen a ah rh
  have hxm : ∀ {k m : ℕ}, k < m → m ≤ 16 →
      (archChainPoint a ah rh k).1 < (archChainPoint a ah rh m).1 :=
    fun hkm hm => archChainPoint_x_lt a ah rh ha hkm hm
  have hzge : ∀ {k : ℕ}, k ≤ 16 → rh ≤ (archChainPoint a ah rh k).2 :=
    fun hk => archChainPoint_z_ge a ah rh hah hk
  intro i j hi hj hij
  rw [hlen] at hi hj ⊢
  have he1 : L.getD 1 (0, 0) = archChainPoint a ah rh 0 := hgc 0 (by norm_num)
  have he2 : L.getD 2 (0, 0) = archChainPoint a ah rh 1 := hgc 1 (by norm_num)
  have he16 : L.getD 16 (0, 0) = archChainPoint a ah rh 15 := hgc 15 (by norm_num)
  have he17 : L.getD 17 (0, 0) = archChainPoint a ah rh 16 := hgc 16 (by norm_num)
  have hi2 : i = 0 ∨ (1 ≤ i ∧ i ≤ 16) ∨ i = 17 ∨ i = 18 := by omega
  have hj2 : j = 0 ∨ (1 ≤ j ∧ j ≤ 16) ∨ j = 17 ∨ j = 18 := by omega
  rcases hi2 with rfl | ⟨hi1, hi16⟩ | rfl | rfl
  · -- i = 0 : the left vertical edge
    rcases hj2 with rfl | ⟨hj1, hj16⟩ | rfl | rfl
    · omega
    · -- j is a chain edge
      obtain ⟨m, rfl⟩ : ∃ m, j = m + 1 := ⟨j - 1, by omega⟩
      rw [hedge 0, hedge (m + 1), hg0]
      rw [show (0 + 1) % 19 = 1 by norm_num, he1]
      rw [show (m + 1 + 1) % 19 = (m + 1) + 1 by omega, hgc (m + 1) (by omega)]
      rw [hgc m (by omega)]
      by_cases hm0 : m = 0
      · subst hm0
        rw [if_pos (by omega)]
        intro p hp
        obtain ⟨hp1, hp2⟩ := hp
        have hx0 : ((-a, 0) : ℝ × ℝ).1 = (archChainPoint a ah rh 0).1 := by
          rw [hc0]
        have hpe : p.1 = (archChainPoint a ah rh 0).1 := by
          rw [← hx0]
          exact seg_fst_const hx0 hp1
        have hpt := seg_fst_left (hxm (by norm_num) (by norm_num) :
          (archChainPoint a ah rh 0).1 < (archChainPoint a ah rh 1).1) hp2 hpe
        rw [Set.mem_singleton_iff]
        exact hpt
      · rw [if_neg (by omega), if_neg (by omega)]
        intro p hp
        obtain ⟨hp1, hp2⟩ := hp
        exfalso
        have hx0 : ((-a, 0) : ℝ × ℝ).1 = (archChainPoint a ah rh 0).1 := by
          rw [hc0]
        have hpe : p.1 = ((-a, 0) : ℝ × ℝ).1 := seg_fst_const hx0 hp1
        have hb2 := seg_fst_between
          (le_of_lt (hxm (Nat.lt_succ_self m) (by omega))) hp2
        have hl2 : (archChainPoint a ah rh 0).1 < (archChainPoint a ah rh m).1 :=
          hxm (by omega) (by omega)
        rw [hc0] at hl2
        dsimp only at hpe hl2
        linarith [hb2.1]
    · -- j = 17 : the right vertical edge
      rw [if_neg (by omega), if_neg (by omega)]
      rw [hedge 0, hedge 17, hg0]
      rw [show (0 + 1) % 19 = 1 by norm_num, he1]
      rw [show (17 + 1) % 19 = 18 by norm_num, he17, hg18]
      intro p hp
      obtain ⟨hp1, hp2⟩ := hp
      exfalso
      have hx0 : ((-a, 0) : ℝ × ℝ).1 = (archChainPoint a ah rh 0).1 := by rw [hc0]
      have hpe1 : p.1 = ((-a, 0) : ℝ × ℝ).1 := seg_fst_const hx0 hp1
      have hx16 : (archChainPoint a ah rh 16).1 = ((a, 0) : ℝ × ℝ).1 := by rw [hc16]
      have hpe2 : p.1 = (archChainPoint a ah rh 16).1 := seg_fst_const hx16 hp2
      rw [hc16] at hpe2
      dsimp only at hpe1 hpe2
      linarith
    · -- j = 18 : the closing bottom edge, wrap-around pair
      rw [if_neg (by omega), if_pos (by omega)]
      rw [hedge 0, hedge 18, hg0, hg18]
      rw [show (0 + 1) % 19 = 1 by norm_num, he1]
      intro p hp
      obtain ⟨hp1, hp2⟩ := hp
      have hz18 : ((a, 0) : ℝ × ℝ).2 = ((-a, 0) : ℝ × ℝ).2 := rfl
      have hpz : p.2 = ((a, 0) : ℝ × ℝ).2 := seg_snd_const hz18 hp2
      have hlt : ((-a, 0) : ℝ × ℝ).2 < (archChainPoint a ah rh 0).2 := by
        rw [hc0]
        dsimp only
        exact hrh
      have hpt := seg_snd_left hlt hp1 (by dsimp only at hpz ⊢; exact hpz)
      rw [Set.mem_singleton_iff]
      exact hpt
  · -- i is a chain edge
    obtain ⟨k, rfl⟩ : ∃ k, i = k + 1 := ⟨i - 1, by omega⟩
    rcases hj2 with rfl | ⟨hj1, hj16⟩ | rfl | rfl
    · omega
    · -- chain against chain
      obtain ⟨m, rfl⟩ : ∃ m, j = m + 1 := ⟨j - 1, by omega⟩
      rw [hedge (k + 1), hedge (m + 1)]
      rw [show (k + 1 + 1) % 19 = (k + 1) + 1 by omega, hgc (k + 1) (by omega)]
      rw [show (m + 1 + 1) % 19 = (m + 1) + 1 by omega, hgc (m + 1) (by omega)]
      rw [hgc k (by omega), hgc m (by omega)]
      have hcore := chain_edges_interact a ah rh ha (show k < m by omega)
        (show m ≤ 15 by omega)
      by_cases hadj : m = k + 1
      · rw [if_pos (by omega)]
        rw [if_pos hadj] at hcore
        exact hcore
      · rw [if_neg (by omega), if_neg (by omega)]
        rw [if_neg hadj] at hcore
        exact hcore
    · -- chain against the right vertical edge
      rw [hedge (k + 1), hedge 17]
      rw [show (k + 1 + 1) % 19 = (k + 1) + 1 by omega, hgc (k + 1) (by omega)]
      rw [hgc k (by omega)]
      rw [show (17 + 1) % 19 = 18 by norm_num, he17, hg18]
      by_cases hk15 : k = 15
      · subst hk15
        rw [if_pos (by omega)]
        intro p hp
        obtain ⟨hp1, hp2⟩ := hp
        have hx16 : (archChainPoint a ah rh 16).1 = ((a, 0) : ℝ × ℝ).1 := by rw [hc16]
        have hpe : p.1 = (archChainPoint a ah rh 16).1 := seg_fst_const hx16 hp2
        have hpt := seg_fst_right (hxm (Nat.lt_succ_self 15) (by norm_num) :
          (archChainPoint a ah rh 15).1 < (archChainPoint a ah rh 16).1) hp1 hpe
        rw [Set.mem_singleton_iff]
        exact hpt
      · rw [if_neg (by omega), if_neg (by omega)]
        intro p hp
        obtain ⟨hp1, hp2⟩ := hp
        exfalso
        have hb1 := seg_fst_between
          (le_of_lt (hxm (Nat.lt_succ_self k) (by omega))) hp1
        have hx16 : (archChainPoint a ah rh 16).1 = ((a, 0) : ℝ × ℝ).1 := by rw [hc16]
        have hpe : p.1 = (archChainPoint a ah rh 16).1 := seg_fst_const hx16 hp2
        have hlt : (archChainPoint a ah rh (k + 1)).1 < (archChainPoint a ah rh 16).1 :=
          hxm (by omega) (by norm_num)
        linarith [hb1.2]
    · -- chain against the closing bottom edge
      rw [if_neg (by omega), if_neg (by omega)]
      rw [hedge (k + 1), hedge 18]
      rw [show (k + 1 + 1) % 19 = (k + 1) + 1 by omega, hgc (k + 1) (by omega)]
      rw [hgc k (by omega)]
      rw [hg18, show (18 + 1) % 19 = 0 by norm_num, hg0]
      intro p hp
      obtain ⟨hp1, hp2⟩ := hp
      exfalso
      have hz18 : ((a, 0) : ℝ × ℝ).2 = ((-a, 0) : ℝ × ℝ).2 := rfl
      have hpz : p.2 = ((a, 0) : ℝ × ℝ).2 := seg_snd_const hz18 hp2
      have hb1 := seg_snd_bounds hp1
      have hzk := hzge (show k ≤ 16 by omega)
      have hzk1 := hzge (show k + 1 ≤ 16 by omega)
      have hmin : rh ≤ min (archChainPoint a ah rh k).2 (archChainPoint a ah rh (k + 1)).2 :=
        le_min hzk hzk1
      dsimp only at hpz
      linarith [hb1.1]
  · -- i = 17 : the right vertical edge
    rcases hj2 with rfl | ⟨hj1, hj16⟩ | rfl | rfl
    · omega
    · omega
    · omega
    · -- (17, 18) : adjacent at the bottom-right corner
      rw [if_pos rfl, hg18]
      rw [hedge 17, hedge 18]
      rw [show (17 + 1) % 19 = 18 by norm_num, he17, hg18]
      rw [show (18 + 1) % 19 = 0 by norm_num, hg0]
      intro p hp
      obtain ⟨hp1, hp2⟩ := hp
      have hz18 : ((a, 0) : ℝ × ℝ).2 = ((-a, 0) : ℝ × ℝ).2 := rfl
      have hpz : p.2 = ((a, 0) : ℝ × ℝ).2 := seg_snd_const hz18 hp2
      rw [segment_symm] at hp1
      have hlt : ((a, 0) : ℝ × ℝ).2 < (archChainPoint a ah rh 16).2 := by
        rw [hc16]
        dsimp only
        exact hrh
      have hpt := seg_snd_left hlt hp1 hpz
      rw [Set.mem_singleton_iff]
      exact hpt
  · omega

/-- The closed polygon consisting of the chain alone (the arched profile with
zero rectangular sub-height) is simple. -/
theorem simple_of_form_zero (a ah : ℝ) (ha : 0 < a) (hah : 0 < ah) :
    IsSimplePolygon ((List.range 17).map (archChainPoint a ah 0)) := by
  set L : List (ℝ × ℝ) := (List.range 17).map (archChainPoint a ah 0) with hL
  have hlen : L.length = 17 := by rw [hL]; simp
  have hgc : ∀ k, k < 17 → L.getD k (0, 0) = archChainPoint a ah 0 k := by
    intro k hk
    rw [hL, List.getD_eq_getElem?_getD, List.getElem?_map, List.getElem?_range hk]
    rfl
  have hedge : ∀ k, polygonEdge L k
      = segment ℝ (L.getD k (0, 0)) (L.getD ((k + 1) % 17) (0, 0)) := by
    intro k
    unfold polygonEdge
    rw [hlen]
  have hc0 : archChainPoint a ah 0 0 = (-a, 0) := archChainPoint_zero a ah 0
  have hc16 : archChainPoint a ah 0 16 = (a, 0) := archChainPoint_sixteen a ah 0
  have hzgt : ∀ {k : ℕ}, 1 ≤ k → k ≤ 15 → (0 : ℝ) < (archChainPoint a ah 0 k).2 :=
    fun h1 h2 => archChainPoint_z_gt a ah 0 hah h1 h2
  intro i j hi hj hij
  rw [hlen] at hi hj ⊢
  have hi2 : i ≤ 15 ∨ i = 16 := by omega
  have hj2 : j ≤ 15 ∨ j = 16 := by omega
  rcases hi2 with hi15 | rfl
  · rcases hj2 with hj15 | rfl
    · -- chain against chain
      rw [hedge i, hedge j]
      rw [show (i + 1) % 17 = i + 1 by omega, show (j + 1) % 17 = j + 1 by omega]
      rw [hgc i (by omega), hgc (i + 1) (by omega), hgc j (by omega), hgc (j + 1) (by omega)]
      have hcore := chain_edges_interact a ah 0 ha hij (by omega)
      by_cases hadj : j = i + 1
      · rw [if_pos hadj]
        rw [if_pos hadj] at hcore
        exact hcore
      · rw [if_neg hadj, if_neg (by omega)]
        rw [if_neg hadj] at hcore
        exact hcore
    · -- chain against the closing bottom edge
      rw [hedge i, hedge 16]
      rw [show (i + 1) % 17 = i + 1 by omega, show (16 + 1) % 17 = 0 by norm_num]
      rw [hgc i (by omega), hgc (i + 1) (by omega), hgc 16 (by norm_num), hgc 0 (by norm_num)]
      have hzc : (archChainPoint a ah 0 16).2 = (archChainPoint a ah 0 0).2 := by
        rw [hc0, hc16]
      rcases show i = 0 ∨ (1 ≤ i ∧ i ≤ 14) ∨ i = 15 by omega with rfl | ⟨hi1, hi14⟩ | rfl
      · -- wrap-around pair (0, 16)
        rw [if_neg (by omega), if_pos (by omega)]
        intro p hp
        obtain ⟨hp1, hp2⟩ := hp
        have hpz : p.2 = (archChainPoint a ah 0 16).2 := seg_snd_const hzc hp2
        rw [hc16] at hpz
        have hlt : (archChainPoint a ah 0 0).2 < (archChainPoint a ah 0 (0 + 1)).2 := by
          rw [hc0]
          exact hzgt (by norm_num) (by norm_num)
        have hpt := seg_snd_left hlt hp1 (by rw [hc0]; exact hpz)
        rw [Set.mem_singleton_iff]
        exact hpt
      · -- interior chain edge: strictly above the bottom
        rw [if_neg (by omega), if_neg (by omega)]
        intro p hp
        obtain ⟨hp1, hp2⟩ := hp
        exfalso
        have hpz : p.2 = (archChainPoint a ah 0 16).2 := seg_snd_const hzc hp2
        rw [hc16] at hpz
        have hb := seg_snd_bounds hp1
        have hz1 := hzgt hi1 (by omega)
        have hz2 := hzgt (show 1 ≤ i + 1 by omega) (by omega)
        have hmin : (0 : ℝ) <
            min (archChainPoint a ah 0 i).2 (archChainPoint a ah 0 (i + 1)).2 :=
          lt_min hz1 hz2
        dsimp only at hpz
        linarith [hb.1]
      · -- adjacent pair (15, 16) at the bottom-right corner
        rw [if_pos (by omega)]
        intro p hp
        obtain ⟨hp1, hp2⟩ := hp
        have hpz : p.2 = (archChainPoint a ah 0 16).2 := seg_snd_const hzc hp2
        rw [segment_symm] at hp1
        have hlt : (archChainPoint a ah 0 16).2 < (archChainPoint a ah 0 15).2 := by
          rw [hc16]
          exact hzgt (by norm_num) (by norm_num)
        have hpt := seg_snd_left hlt hp1 hpz
        rw [Set.mem_singleton_iff]
        exact hpt
  · omega

theorem chain_map_getD (a ah rh : ℝ) {k : ℕ} (hk : k < 17) :
    (((List.range 17).map (archChainPoint a ah rh)).getD k (0, 0))
      = archChainPoint a ah rh k := by
  rw [List.getD_eq_getElem?_getD, List.getElem?_map, List.getElem?_range hk]
  rfl

-- ## Claim C5

/-- Claim C5 counterexample: at the door's dimensions (width 20.32,
height 38.1, default arch height) the profile's vertex list has 19 entries —
`ARCH_SEGMENTS + 3` — not `2·ARCH_SEGMENTS + 2 = 34`, nor 32 after
subtracting the two shared corner points. -/
theorem arch_vertex_count_claim_false :
    (archPoints 20.32 38.1 none).length = 19 ∧
    2 * ARCH_SEGMENTS + 2 = 34 ∧
    2 * ARCH_SEGMENTS + 2 - 2 = 32 ∧
    (archPoints 20.32 38.1 none).length ≠ 2 * ARCH_SEGMENTS + 2 ∧
    (archPoints 20.32 38.1 none).length ≠ 2 * ARCH_SEGMENTS + 2 - 2 := by
  have hrh : rectHeightVal 20.32 38.1 none > 0 := by
    unfold rectHeightVal archHeightVal
    simp only [Option.getD_none]
    rw [if_neg (by norm_num : ¬((20.32 : ℝ) / 2 > 38.1))]
    rw [show (38.1 : ℝ) - 20.32 / 2 = 27.94 by norm_num]
    rw [max_eq_right (by norm_num : (0:ℝ) ≤ 27.94)]
    norm_num
  have hlen : (archPoints 20.32 38.1 none).length = 19 := by
    rw [archPoints_eq_chain, if_pos hrh]
    simp
  refine ⟨hlen, by norm_num [ARCH_SEGMENTS], by norm_num [ARCH_SEGMENTS], ?_, ?_⟩
  · rw [hlen]
    norm_num [ARCH_SEGMENTS]
  · rw [hlen]
    norm_num [ARCH_SEGMENTS]

/-- Claim C5 as amended: for valid arch parameters (positive width and
height, a positive arch height when one is supplied; the used arch height is
clamped to the height, so `arch_height ≤ height` holds by construction), the
profile built by `create_arched_opening` is a closed polygon with exactly
`ARCH_SEGMENTS + 1 + (2 if rect_height > 0 else 0)` vertices, its vertex set
is symmetric under x ↦ -x, its vertices are pairwise distinct, and the closed
polygon on them (the closing edge drawn by `close()` included) is
non-self-intersecting: two distinct edges meet at most in a shared vertex. -/
theorem arched_profile_simple_symmetric (w h : ℝ) (opt : Option ℝ)
    (hw : 0 < w) (hh : 0 < h) (hsup : ∀ aa, aa ∈ opt → 0 < aa) :
    (archPoints w h opt).length
      = ARCH_SEGMENTS + 1 + (if rectHeightVal w h opt > 0 then 2 else 0) ∧
    (∀ q ∈ archPoints w h opt, (-q.1, q.2) ∈ archPoints w h opt) ∧
    (archPoints w h opt).Nodup ∧
    IsSimplePolygon (archPoints w h opt) := by
  have hah := archHeightVal_pos w h opt hw hh hsup
  refine ⟨?_, fun q hq => archPoints_symm w h opt q hq, ?_, ?_⟩
  · rw [archPoints_eq_chain]
    split_ifs with hrh <;> simp [ARCH_SEGMENTS]
  · by_cases hrh : rectHeightVal w h opt > 0
    · exact archPoints_nodup_of_rh_pos w h opt hw hah.le hrh
    · exact archPoints_nodup_of_rh_zero w h opt hw hrh
  · by_cases hrh : rectHeightVal w h opt > 0
    · rw [archPoints_eq_chain, if_pos hrh]
      have hform := simple_of_form_pos (w / 2) (archHeightVal w h opt)
        (rectHeightVal w h opt) (by linarith) hah.le hrh
      rw [show (-w / 2 : ℝ) = -(w / 2) by ring]
      exact hform
    · rw [archPoints_eq_chain, if_neg hrh]
      have hz : rectHeightVal w h opt = 0 :=
        le_antisymm (not_lt.1 hrh) (rectHeightVal_nonneg w h opt)
      rw [hz]
      exact simple_of_form_zero (w / 2) (archHeightVal w h opt) (by linarith) hah

/-- Witness for the amended C5 at the door's dimensions. -/
theorem arched_profile_simple_symmetric_witness :
    (0 : ℝ) < 20.32 ∧ (0 : ℝ) < 38.1 ∧
    (archPoints 20.32 38.1 none).length
      = ARCH_SEGMENTS + 1 + (if rectHeightVal 20.32 38.1 none > 0 then 2 else 0) :=
  ⟨by norm_num, by norm_num,
    (arched_profile_simple_symmetric 20.32 38.1 none (by norm_num) (by norm_num)
      (fun aa haa => absurd haa (by simp))).1⟩

-- ## Claim C6

/-- Claim C6: `create_arched_opening` defaults the arch height to `width/2`
when none is supplied (the default is then still clamped to the height, so
the conjunct assumes `width/2 ≤ height`), clamps a supplied arch height down
to the height when it is larger, and at `arch_height = height` the
rectangular sub-height degenerates to 0 and the two shoulder vertices are
omitted: the list has exactly `ARCH_SEGMENTS + 1` vertices, no duplicate
points, no zero-length edge between consecutive vertices, and the closing
edge from the last vertex back to the first is not zero-length either. -/
theorem arch_default_clamp_and_degenerate (w h d : ℝ) (hw : 0 < w) (hh : 0 < h)
    (hd : 0 < d) :
    (w / 2 ≤ h → archHeightVal w h none = w / 2) ∧
    (∀ aa, h < aa → archHeightVal w h (some aa) = h) ∧
    archHeightVal w h (some h) = h ∧
    rectHeightVal w h (some h) = 0 ∧
    (archPoints w h (some h)).length = ARCH_SEGMENTS + 1 ∧
    (archPoints w h (some h)).Nodup ∧
    List.Chain' (fun p q => p ≠ q) (archPoints w h (some h)) ∧
    (archPoints w h (some h)).getD 0 (0, 0)
      ≠ (archPoints w h (some h)).getD ARCH_SEGMENTS (0, 0) := by
  have h3 : archHeightVal w h (some h) = h := by
    unfold archHeightVal
    simp only [Option.getD_some]
    rw [if_neg (lt_irrefl h)]
  have h4 : rectHeightVal w h (some h) = 0 := by
    unfold rectHeightVal
    rw [h3]
    simp
  have hrh : ¬rectHeightVal w h (some h) > 0 := by
    rw [h4]
    norm_num
  have hnodup := archPoints_nodup_of_rh_zero w h (some h) hw hrh
  refine ⟨?_, ?_, h3, h4, ?_, hnodup, List.Pairwise.chain' hnodup, ?_⟩
  · intro hle
    unfold archHeightVal
    simp only [Option.getD_none]
    rw [if_neg (not_lt.2 hle)]
  · intro aa haa
    unfold archHeightVal
    simp only [Option.getD_some]
    rw [if_pos haa]
  · rw [archPoints_eq_chain, if_neg hrh]
    simp [ARCH_SEGMENTS]
  · rw [archPoints_eq_chain, if_neg hrh, h4]
    rw [show ARCH_SEGMENTS = 16 from rfl]
    rw [chain_map_getD _ _ _ (by norm_num), chain_map_getD _ _ _ (by norm_num)]
    rw [archChainPoint_zero, archChainPoint_sixteen]
    intro heq
    rw [Prod.mk.injEq] at heq
    obtain ⟨h5, -⟩ := heq
    linarith

/-- Witness for C6 at the window's dimensions. -/
theorem arch_default_clamp_and_degenerate_witness :
    (0 : ℝ) < 15.24 ∧ archHeightVal 15.24 15.24 (some 15.24) = 15.24 ∧
    (archPoints 15.24 15.24 (some 15.24)).length = ARCH_SEGMENTS + 1 :=
  ⟨by norm_num,
    (arch_default_clamp_and_degenerate 15.24 15.24 4.81 (by norm_num) (by norm_num)
      (by norm_num)).2.2.1,
    (arch_default_clamp_and_degenerate 15.24 15.24 4.81 (by norm_num) (by norm_num)
      (by norm_num)).2.2.2.2.1⟩

end Gingerbread
